import Mathlib

/-!
Shallow embedding of the mountain-bike race system core
(`src/raceSystem/services/RaceService.js`,
`src/raceSystem/data/repositories/RaceResultRepository.js`, and the
mongoose schemas for `Race` and `RaceResult`).

Machine conventions used throughout:
* timestamps (`Date` values) are integers, milliseconds since the epoch;
* a JavaScript value that may be `null`/`undefined` (and `NaN` arising
  from arithmetic on `undefined`) is modelled as an `Option`;
* the document stores are association lists held in a `StoreState`;
  `findById` / `findOne` return the first matching element,
  `findByIdAndUpdate` / `findOneAndUpdate` update the first matching
  element, and `updateMany` maps over every matching element, mirroring
  MongoDB semantics for a store whose `_id`s are unique;
* operations that can `throw` return `Except String`, carrying the thrown
  message; each service method's `catch` block only logs and rethrows, so
  it does not appear in the embedding, with the single exception of
  `canRaceBeStarted`, whose `catch` returns a normal value (see below).
-/

set_option maxHeartbeats 1000000

/-- Race lifecycle status (`raceSchema.status` enum). -/
inductive RaceStatus
  | Draft | Open | Closed | InProgress | Completed | Cancelled
  deriving DecidableEq

/-- Result lifecycle status (`raceResultSchema.status` enum). -/
inductive ResultStatus
  | Registered | Started | Finished | DNF | DSQ
  deriving DecidableEq

/-- A `Race` document (the fields of `raceSchema` that the core race
lifecycle and reporting logic reads; `startTime` is `required` in the
schema, but `canRaceBeStarted` tests its presence, so it is an `Option`). -/
structure Race where
  id : Nat
  name : String
  status : RaceStatus
  startTime : Option Int
  endTime : Option Int
  categories : List String
  weatherConditions : Option String
  deriving DecidableEq

/-- A `RaceResult` document (`raceResultSchema`).  The schema marks
`rider`, `race` and `startTime` as `required`; `finishTime`, `totalTime`,
`position` and `notes` are optional.  `startTime` is an `Option` here so
that the document *as constructed by the service code* can be expressed;
mongoose validation (which rejects a missing `startTime` on `save()`) is
modelled at the save call site. -/
structure RaceResult where
  id : Nat
  race : Nat
  rider : Nat
  startTime : Option Int
  finishTime : Option Int
  totalTime : Option Int
  status : ResultStatus
  position : Option Nat
  notes : Option String
  deriving DecidableEq

/-- The backing stores: the `Race` collection, the `RaceResult`
collection, and the rider directory (only existence of a rider id is
relevant to the embedded operations). -/
structure StoreState where
  races : List Race
  results : List RaceResult
  riders : List Nat
  deriving DecidableEq

/-- `Race.findById` — first document with the given `_id`. -/
def findRace (s : StoreState) (raceId : Nat) : Option Race :=
  s.races.find? (fun r => r.id == raceId)

/-- `padStart(2, '0')` on a decimal string. -/
def padStart2 (s : String) : String :=
  if s.length < 2 then String.mk (List.replicate (2 - s.length) '0') ++ s else s

/-- `RaceService.formatTime(seconds)`.  `!seconds` is JavaScript
truthiness: `null`/`undefined` (here `none`) and `0` give `null`.
`Math.floor(x / k)` on an integer is `Int.fdiv`, and the JavaScript `%`
operator truncates towards zero, i.e. `Int.tmod`. -/
def formatTime (seconds : Option Int) : Option String :=
  match seconds with
  | none => none
  | some s =>
    if s == 0 then none
    else
      let hours := Int.fdiv s 3600
      let minutes := Int.fdiv (Int.tmod s 3600) 60
      let secs := Int.tmod s 60
      if hours > 0 then
        some (toString hours ++ ":" ++ padStart2 (toString minutes) ++ ":" ++
          padStart2 (toString secs))
      else
        some (toString minutes ++ ":" ++ padStart2 (toString secs))

/-- Ascending MongoDB `sort({ totalTime: 1 })` comparator.  MongoDB
orders documents whose sort key is missing or null before any number in
ascending order. -/
def leTime (a b : RaceResult) : Bool :=
  match a.totalTime, b.totalTime with
  | none, _ => true
  | some _, none => false
  | some x, some y => decide (x ≤ y)

/-- Stable insertion into a `leTime`-sorted list (the sort contract of the
store: ascending by `totalTime`, ties kept in the relative order the
documents are stored in). -/
def orderedInsert (r : RaceResult) : List RaceResult → List RaceResult
  | [] => [r]
  | x :: xs => if leTime r x then r :: x :: xs else x :: orderedInsert r xs

/-- Stable ascending sort by `totalTime` (`sort({ totalTime: 1 })`). -/
def sortByTime : List RaceResult → List RaceResult
  | [] => []
  | x :: xs => orderedInsert x (sortByTime xs)

/-- `RaceResult.findByIdAndUpdate(id, { position })` — update the first
(and, `_id`s being unique, only) document with the given id. -/
def setPositionFirst (id pos : Nat) : List RaceResult → List RaceResult
  | [] => []
  | r :: rs =>
    if r.id == id then { r with position := some pos } :: rs
    else r :: setPositionFirst id pos rs

/-- The update loop of `RaceResultRepository.updateRacePositions`:
`for (i = 0; i < results.length; i++) findByIdAndUpdate(results[i]._id,
{ position: i + 1 })`. -/
def applyPositions : List RaceResult → Nat → List RaceResult → List RaceResult
  | [], _, store => store
  | r :: rs, i, store => applyPositions rs (i + 1) (setPositionFirst r.id (i + 1) store)

/-- `find({ race: raceId, status: 'Finished' })` in store order. -/
def finishedOfRace (s : StoreState) (raceId : Nat) : List RaceResult :=
  s.results.filter (fun r => r.race == raceId && r.status == ResultStatus.Finished)

/-- `RaceResultRepository.updateRacePositions(raceId)`: fetch the
Finished results of the race sorted ascending by `totalTime`, then assign
`position = i + 1` document by document. -/
def updateRacePositionsRepo (s : StoreState) (raceId : Nat) : StoreState :=
  { s with results := applyPositions (sortByTime (finishedOfRace s raceId)) 0 s.results }

/-- JavaScript `a + b` where either side may be `undefined`/`NaN`
(modelled `none`). -/
def jsAdd : Option Int → Option Int → Option Int
  | some a, some b => some (a + b)
  | _, _ => none

/-- JavaScript `a - b` where either side may be `undefined`/`NaN`. -/
def jsSub : Option Int → Option Int → Option Int
  | some a, some b => some (a - b)
  | _, _ => none

/-- Template-literal rendering: `null` prints as the string `"null"`. -/
def jsDisplay : Option String → String
  | some str => str
  | none => "null"

/-- `Math.round(total / n)` for integer `total` and positive integer `n`:
JavaScript rounds halves towards `+∞`, i.e. `⌊total/n + 1/2⌋`. -/
def jsRoundDiv (total : Int) (n : Nat) : Int :=
  Int.fdiv (2 * total + n) (2 * n)

/-- One entry of `getTop3FastestRiders`. -/
structure Top3Entry where
  result : RaceResult
  rank : Nat
  formattedTime : Option String
  gap : Option String
  deriving DecidableEq

/-- `RaceService.getTop3FastestRiders`: the repository query
`find({ race, status: 'Finished', totalTime: { $exists: true, $ne: null } })
.sort({ totalTime: 1 }).limit(3)`, each entry annotated with `rank`,
`formattedTime` and `gap` against the fastest. -/
def getTop3FastestRiders (s : StoreState) (raceId : Nat) : List Top3Entry :=
  let results := (sortByTime (s.results.filter (fun r =>
    r.race == raceId && r.status == ResultStatus.Finished && !(r.totalTime == none)))).take 3
  match results with
  | [] => []
  | r0 :: _ =>
    results.enum.map (fun p =>
      { result := p.2, rank := p.1 + 1,
        formattedTime := formatTime p.2.totalTime,
        gap := if p.1 == 0 then none
               else some ("+" ++ jsDisplay (formatTime (jsSub p.2.totalTime r0.totalTime))) })

/-- `getLiveStandings` / `updateRacePositions` service wrapper:
recompute positions through the repository, then return the top 3. -/
def updateRacePositionsService (s : StoreState) (raceId : Nat) :
    StoreState × List Top3Entry :=
  let s1 := updateRacePositionsRepo s raceId
  (s1, getTop3FastestRiders s1 raceId)

/-- Result of `canRaceBeStarted`. -/
structure StartEligibility where
  canStart : Bool
  reason : Option String
  deriving DecidableEq

/-- `Math.round((startTime - now) / (1000 * 60))` — minutes remaining,
rounded half towards `+∞`; `d` is the difference in milliseconds. -/
def roundMinutes (d : Int) : Int :=
  Int.fdiv (2 * d + 60000) 120000

/-- `RaceService.canRaceBeStarted(raceId, isManualStart = true)`.
`raceLookup` is the outcome of the `Race.findById` store call: an
infrastructure error there is caught by this method's `catch` block,
which returns `{ canStart: false, reason: 'Error checking race
eligibility' }` instead of rethrowing — the one place in the service
that converts an error into a normal return value. -/
def canRaceBeStarted (raceLookup : Except String (Option Race))
    (isManualStart : Bool) (now : Int) : StartEligibility :=
  match raceLookup with
  | .error _ => { canStart := false, reason := some "Error checking race eligibility" }
  | .ok none => { canStart := false, reason := some "Race not found" }
  | .ok (some race) =>
    if race.status != RaceStatus.Open then
      { canStart := false, reason := some "Race status must be Open to start" }
    else if isManualStart then
      { canStart := true, reason := none }
    else
      match race.startTime with
      | some st =>
        if st > now then
          { canStart := false,
            reason := some ("Race starts in " ++ toString (roundMinutes (st - now)) ++ " minutes") }
        else { canStart := true, reason := none }
      | none => { canStart := true, reason := none }

/-- `Race.findByIdAndUpdate(raceId, patch)` — update the first document
with the given `_id`; also returns the updated document (`{ new: true }`),
`none` when absent. -/
def updateRaceFirst (races : List Race) (raceId : Nat) (f : Race → Race) :
    List Race × Option Race :=
  match races with
  | [] => ([], none)
  | r :: rs =>
    if r.id == raceId then (f r :: rs, some (f r))
    else
      let p := updateRaceFirst rs raceId f
      (r :: p.1, p.2)

/-- The `updateMany({ race, status: 'Registered' }, { status: 'Started',
startTime })` patch applied document-wise at mass start. -/
def massStartUpdate (raceId : Nat) (t : Int) (r : RaceResult) : RaceResult :=
  if r.race == raceId && r.status == ResultStatus.Registered then
    { r with status := ResultStatus.Started, startTime := some t }
  else r

/-- Return value of `startRace`. -/
structure StartOutput where
  race : Option Race
  ridersStarted : Nat
  massStartTime : Int
  deriving DecidableEq

/-- `RaceService.startRace(raceId)`: look the race up; auto-promote
Draft to Open; re-check eligibility via `canRaceBeStarted` (manual
override); on success set the race to InProgress with `startTime = now`,
bulk-transition every Registered result of the race to Started with the
same `startTime`, and count the Started results. -/
def startRace (s : StoreState) (raceId : Nat) (now : Int) :
    Except String (StoreState × StartOutput) :=
  match findRace s raceId with
  | none => .error "Race not found"
  | some race =>
    let s1 := if race.status == RaceStatus.Draft then
        { s with races := (updateRaceFirst s.races raceId
            (fun r => { r with status := RaceStatus.Open })).1 }
      else s
    let elig := canRaceBeStarted (.ok (findRace s1 raceId)) true now
    if !elig.canStart then .error (jsDisplay elig.reason)
    else
      let p := updateRaceFirst s1.races raceId
        (fun r => { r with status := RaceStatus.InProgress, startTime := some now })
      let s2 := { s1 with races := p.1 }
      let s3 := { s2 with results := s2.results.map (massStartUpdate raceId now) }
      let startedCount := (s3.results.filter (fun r =>
        r.race == raceId && r.status == ResultStatus.Started)).length
      .ok (s3, { race := p.2, ridersStarted := startedCount, massStartTime := now })

/-- The `validStatuses` list of `updateRiderStatus`. -/
def validStatuses : List String := ["Registered", "Started", "Finished", "DNF", "DSQ"]

/-- Decode a raw status string; `none` exactly when
`!validStatuses.includes(status)`. -/
def parseStatus : String → Option ResultStatus
  | "Registered" => some ResultStatus.Registered
  | "Started" => some ResultStatus.Started
  | "Finished" => some ResultStatus.Finished
  | "DNF" => some ResultStatus.DNF
  | "DSQ" => some ResultStatus.DSQ
  | _ => none

/-- The `updateData` patch of `updateRiderStatus` applied to a document:
always sets `status`; copies `notes` only when truthy (`if (notes)` — the
empty string is falsy); for DNF/DSQ additionally sets
`finishTime = new Date()` and deliberately does not touch `totalTime`. -/
def applyStatusUpdate (st : ResultStatus) (notes : Option String) (now : Int)
    (r : RaceResult) : RaceResult :=
  let r1 := { r with status := st }
  let r2 := match notes with
    | some n => if n == "" then r1 else { r1 with notes := some n }
    | none => r1
  if st == ResultStatus.DNF || st == ResultStatus.DSQ then
    { r2 with finishTime := some now }
  else r2

/-- `RaceResult.findOneAndUpdate({ race, rider }, patch, { new: true })` —
update the first document matching the (race, rider) pair and return it. -/
def findOneAndUpdateByPair (raceId riderId : Nat) (f : RaceResult → RaceResult) :
    List RaceResult → List RaceResult × Option RaceResult
  | [] => ([], none)
  | r :: rs =>
    if r.race == raceId && r.rider == riderId then (f r :: rs, some (f r))
    else
      let p := findOneAndUpdateByPair raceId riderId f rs
      (r :: p.1, p.2)

/-- `RaceService.updateRiderStatus(raceId, riderId, status, notes)`. -/
def updateRiderStatus (s : StoreState) (raceId riderId : Nat) (status : String)
    (notes : Option String) (now : Int) : Except String (StoreState × RaceResult) :=
  match parseStatus status with
  | none => .error "Invalid status"
  | some st =>
    let p := findOneAndUpdateByPair raceId riderId (applyStatusUpdate st notes now) s.results
    match p.2 with
    | none => .error "Rider not found in this race"
    | some res => .ok ({ s with results := p.1 }, res)

/-- `Math.floor((finishTime - result.startTime) / 1000)`.  When
`startTime` is missing the JavaScript subtraction yields `NaN`
(modelled `none`). -/
def jsTotalTime (now : Int) (startTime : Option Int) : Option Int :=
  match startTime with
  | some st => some (Int.fdiv (now - st) 1000)
  | none => none

/-- `RaceResult.findByIdAndUpdate(id, { status: 'Finished', finishTime,
totalTime })` applied to the first document with the given `_id`. -/
def applyFinishById (id : Nat) (now : Int) (tt : Option Int) :
    List RaceResult → List RaceResult
  | [] => []
  | r :: rs =>
    if r.id == id then
      { r with status := ResultStatus.Finished, finishTime := some now, totalTime := tt } :: rs
    else r :: applyFinishById id now tt rs

/-- The enriched return value of `finishRider`. -/
structure EnrichedResult where
  result : RaceResult
  formattedTime : Option String
  position : Option Nat
  deriving DecidableEq

/-- The read phase of `finishRider`: `RaceResult.findOne({ race, rider,
status: 'Started' })`. -/
def finishRiderLookup (s : StoreState) (raceId riderId : Nat) : Option RaceResult :=
  s.results.find? (fun r =>
    r.race == raceId && r.rider == riderId && r.status == ResultStatus.Started)

/-- The write phase of `finishRider`, everything after the `findOne`:
compute `totalTime` from the *previously read* document, update by `_id`
to Finished (a write that is **not** guarded by the current status),
recompute the race positions, and build the enriched return value from
the document as it was before the recomputation.  The `none` branch
models the `TypeError` the JavaScript would raise on
`updatedResult.toObject()` if the `_id` had vanished. -/
def finishRiderCommit (s : StoreState) (found : RaceResult) (raceId : Nat)
    (now : Int) : StoreState × Option EnrichedResult :=
  let tt := jsTotalTime now found.startTime
  let s1 := { s with results := applyFinishById found.id now tt s.results }
  let updatedOpt := s1.results.find? (fun r => r.id == found.id)
  let s2 := (updateRacePositionsService s1 raceId).1
  match updatedOpt with
  | none => (s2, none)
  | some u => (s2, some { result := u, formattedTime := formatTime tt, position := u.position })

/-- `RaceService.finishRider(raceId, riderId)` — the read phase followed
by the write phase. -/
def finishRider (s : StoreState) (raceId riderId : Nat) (now : Int) :
    Except String (StoreState × Option EnrichedResult) :=
  match finishRiderLookup s raceId riderId with
  | none => .error "Rider not found or not started yet"
  | some found => .ok (finishRiderCommit s found raceId now)

/-- `find({ race: raceId })` in store order. -/
def resultsOfRace (s : StoreState) (raceId : Nat) : List RaceResult :=
  s.results.filter (fun r => r.race == raceId)

/-- `RaceResultRepository.getResultsByRace` —
`find({ race }).sort({ totalTime: 1 })`. -/
def getResultsByRace (s : StoreState) (raceId : Nat) : List RaceResult :=
  sortByTime (resultsOfRace s raceId)

/-- Return value of `getRidersWhoDidNotFinish`. -/
structure DNFReport where
  dnf : List RaceResult
  dsq : List RaceResult
  total : Nat
  reasons : List (String × Nat)
  deriving DecidableEq

/-- One step of `aggregateDNFReasons`:
`reasons[notes] = (reasons[notes] || 0) + 1` on an insertion-ordered map. -/
def bumpReason : List (String × Nat) → String → List (String × Nat)
  | [], note => [(note, 1)]
  | (k, c) :: rest, note =>
    if k == note then (k, c + 1) :: rest else (k, c) :: bumpReason rest note

/-- `RaceService.aggregateDNFReasons` — count occurrences of truthy
`notes` strings. -/
def aggregateDNFReasons (dnfRiders : List RaceResult) : List (String × Nat) :=
  dnfRiders.foldl (fun acc r =>
    match r.notes with
    | some n => if n == "" then acc else bumpReason acc n
    | none => acc) []

/-- `RaceService.getRidersWhoDidNotFinish(raceId)` — the repository query
`find({ race, status: { $in: ['DNF', 'DSQ'] } })` partitioned by status. -/
def getRidersWhoDidNotFinish (s : StoreState) (raceId : Nat) : DNFReport :=
  let dnfRiders := s.results.filter (fun r =>
    r.race == raceId && (r.status == ResultStatus.DNF || r.status == ResultStatus.DSQ))
  { dnf := dnfRiders.filter (fun r => r.status == ResultStatus.DNF),
    dsq := dnfRiders.filter (fun r => r.status == ResultStatus.DSQ),
    total := dnfRiders.length,
    reasons := aggregateDNFReasons dnfRiders }

/-- `RaceService.calculateAverageTime(finishedResults)` —
`Math.round(Σ totalTime / count)`, `null` for an empty list.  The JS
`reduce((sum, r) => sum + r.totalTime, 0)` turns a missing `totalTime`
into `NaN`, hence the `jsAdd` fold. -/
def calculateAverageTime (finishedResults : List RaceResult) : Option Int :=
  if finishedResults.length == 0 then none
  else
    match finishedResults.foldl (fun acc r => jsAdd acc r.totalTime) (some 0) with
    | none => none
    | some total => some (jsRoundDiv total finishedResults.length)

/-- The `statistics` block of `generateRaceReport`. -/
structure RaceStatistics where
  totalParticipants : Nat
  finishedCount : Nat
  dnfCount : Nat
  dsqCount : Nat
  averageTime : Option Int
  deriving DecidableEq

/-- The full race report. -/
structure RaceReport where
  race : Race
  statistics : RaceStatistics
  top3Fastest : List Top3Entry
  didNotFinish : DNFReport
  weatherConditions : Option String
  deriving DecidableEq

/-- `RaceService.generateRaceReport(raceId)`.  A race id that does not
resolve gives the soft `{ race: null }` marker (`.ok none` here), not an
error; `dnfCount` is `dnf.total`, the size of the combined DNF + DSQ
list. -/
def generateRaceReport (s : StoreState) (raceId : Nat) :
    Except String (Option RaceReport) :=
  match findRace s raceId with
  | none => .ok none
  | some race =>
    let results := getResultsByRace s raceId
    let top3 := getTop3FastestRiders s raceId
    let dnf := getRidersWhoDidNotFinish s raceId
    let finishedResults := results.filter (fun r => r.status == ResultStatus.Finished)
    let averageTime := calculateAverageTime finishedResults
    .ok (some {
      race := race,
      statistics := {
        totalParticipants := results.length,
        finishedCount := finishedResults.length,
        dnfCount := dnf.total,
        dsqCount := (results.filter (fun r => r.status == ResultStatus.DSQ)).length,
        averageTime := averageTime },
      top3Fastest := top3,
      didNotFinish := dnf,
      weatherConditions := race.weatherConditions })

/-- `RaceService.finishRace(raceId)`.  `raceLookup` is the outcome of the
`Race.findById` store call; an infrastructure error there is logged and
rethrown unchanged by the method's `catch` block. -/
def finishRace (raceLookup : Except String (Option Race)) (s : StoreState)
    (raceId : Nat) (now : Int) : Except String (StoreState × Option Race) :=
  match raceLookup with
  | .error e => .error e
  | .ok none => .error "Race not found"
  | .ok (some race) =>
    if race.status != RaceStatus.InProgress then
      .error "Only races in progress can be finished"
    else
      let p := updateRaceFirst s.races raceId
        (fun r => { r with status := RaceStatus.Completed, endTime := some now })
      .ok ({ s with races := p.1 }, p.2)

/-- `RaceService.registerParticipant(raceId, riderId)`: race lookup,
rider lookup, duplicate check, then `new RaceResult({ race, rider,
status: 'Registered' }).save()`.  The constructed document has no
`startTime`, but `raceResultSchema` declares `startTime: { type: Date,
required: true }` with no default, so mongoose validation rejects the
document on `save()`: the final branch is the `ValidationError` that call
throws. -/
def registerParticipant (s : StoreState) (raceId riderId : Nat) :
    Except String (StoreState × RaceResult) :=
  match findRace s raceId with
  | none => .error "Race not found"
  | some _ =>
    if !(s.riders.contains riderId) then .error "Rider not found"
    else
      match s.results.find? (fun r => r.race == raceId && r.rider == riderId) with
      | some _ => .error "Rider already registered for this race"
      | none =>
        .error "RaceResult validation failed: startTime: Path `startTime` is required."

/-- Store well-formedness guaranteed by the database: `_id`s are unique
in both collections, and `raceResultSchema.index({ race: 1, rider: 1 },
{ unique: true })` makes the (race, rider) pair unique. -/
def WFState (s : StoreState) : Prop :=
  (s.races.map (fun r => r.id)).Nodup ∧
  (s.results.map (fun r => r.id)).Nodup ∧
  (s.results.map (fun r => (r.race, r.rider))).Nodup

instance (s : StoreState) : Decidable (WFState s) := by
  unfold WFState
  infer_instance

/-- The derived-time invariant of the spec, per result: `totalTime` is
defined iff the status is Finished, and then equals
`⌊(finishTime - startTime) / 1000⌋` seconds. -/
def resultTimeOK (r : RaceResult) : Bool :=
  if r.status == ResultStatus.Finished then
    match r.finishTime, r.startTime, r.totalTime with
    | some ft, some st, some tt => tt == Int.fdiv (ft - st) 1000
    | _, _, _ => false
  else r.totalTime == none

/-- The derived-time invariant over the whole store. -/
def derivedTimeInv (s : StoreState) : Bool :=
  s.results.all resultTimeOK

/-- Every stored result carries a `startTime` — the schema marks it
`required`, so any document that passed insertion validation has one. -/
def startTimesPresent (s : StoreState) : Bool :=
  s.results.all (fun r => r.startTime.isSome)

/-- 1-based rank at which `updateRacePositions` writes the document with
the given id: `lookupRank L i id = some (i + k + 1)` when the id sits at
offset `k` of the sorted fetch `L`. -/
def lookupRank : List RaceResult → Nat → Nat → Option Nat
  | [], _, _ => none
  | r :: rs, i, id => if r.id == id then some (i + 1) else lookupRank rs (i + 1) id

/-- The cumulative effect of the `updateRacePositions` write loop on one
stored document: overwrite its position with its rank in the sorted
fetch, when it occurs there. -/
def posAssign (L : List RaceResult) (i : Nat) (x : RaceResult) : RaceResult :=
  match lookupRank L i x.id with
  | some p => { x with position := some p }
  | none => x

/-! Concrete fixture states used by the closed counterexample theorems
and by the witnesses of the conditional theorems. -/

/-- A sample Open race. -/
def demoRace : Race :=
  { id := 1, name := "Hill Sprint", status := RaceStatus.Open, startTime := some 0,
    endTime := none, categories := [], weatherConditions := none }

/-- Store with the sample race, no results, riders 2 and 3 on file. -/
def demoReg : StoreState := { races := [demoRace], results := [], riders := [2, 3] }

/-- A Registered result for rider 2 in race 1. -/
def demoRegResult : RaceResult :=
  { id := 10, race := 1, rider := 2, startTime := some 0, finishTime := none,
    totalTime := none, status := ResultStatus.Registered, position := none, notes := none }

/-- Store where rider 2 is already registered for race 1. -/
def demoReg2 : StoreState :=
  { races := [demoRace], results := [demoRegResult], riders := [2, 3] }

/-- Store with riders 2 and 3 registered for the Open race 1. -/
def demoOpen : StoreState :=
  { races := [demoRace],
    results := [demoRegResult,
      { id := 11, race := 1, rider := 3, startTime := some 0, finishTime := none,
        totalTime := none, status := ResultStatus.Registered, position := none,
        notes := none }],
    riders := [2, 3] }

/-- The mass-started form of race 1 (outcome of `startRace demoOpen 1 5000`). -/
def demoStartPair : StoreState × StartOutput :=
  match startRace demoOpen 1 5000 with
  | Except.ok p => p
  | Except.error _ => (demoOpen, { race := none, ridersStarted := 0, massStartTime := 0 })

/-- The store after the mass start. -/
def demoStarted : StoreState := demoStartPair.1

/-- The Started document of rider 2 after the mass start (what the
`findOne` read phase of `finishRider` returns). -/
def demoC8found : RaceResult :=
  { id := 10, race := 1, rider := 2, startTime := some 5000, finishTime := none,
    totalTime := none, status := ResultStatus.Started, position := none, notes := none }

/-- Outcome of a successful `finishRider demoStarted 1 2 105000`. -/
def demoFinPair : StoreState × Option EnrichedResult :=
  match finishRider demoStarted 1 2 105000 with
  | Except.ok p => p
  | Except.error _ => (demoStarted, none)

/-- Store with a lone Registered result (for the derived-time
counterexample; `updateRiderStatus` performs no race lookup). -/
def demoPlain : StoreState :=
  { races := [demoRace], results := [demoRegResult], riders := [2, 3] }

/-- Outcome of `updateRiderStatus demoPlain 1 2 "Finished"` — an
administrative status change with no time bookkeeping. -/
def demoAdminFinPair : StoreState × RaceResult :=
  match updateRiderStatus demoPlain 1 2 "Finished" none 7000 with
  | Except.ok p => p
  | Except.error _ => (demoPlain, demoRegResult)

/-- Outcome of `updateRiderStatus demoPlain 1 2 "DNF"` at time 8000. -/
def demoDnfPair : StoreState × RaceResult :=
  match updateRiderStatus demoPlain 1 2 "DNF" (some "Mechanical failure") 8000 with
  | Except.ok p => p
  | Except.error _ => (demoPlain, demoRegResult)

/-- Store whose race 1 holds one DSQ result and nothing else (for the
report counterexample). -/
def demoDsq : StoreState :=
  { races := [demoRace],
    results := [
      { id := 12, race := 1, rider := 2, startTime := some 0, finishTime := some 300000,
        totalTime := none, status := ResultStatus.DSQ, position := none,
        notes := some "Rule violation" }],
    riders := [2] }

/-- The report generated for `demoDsq`. -/
def demoDsqReport : Option RaceReport :=
  match generateRaceReport demoDsq 1 with
  | Except.ok rep => rep
  | Except.error _ => none

/-- Store used by the rank-consistency witness: three Finished results
with distinct totalTimes stored out of order, plus one Started result. -/
def demoRank : StoreState :=
  { races := [demoRace],
    results := [
      { id := 20, race := 1, rider := 2, startTime := some 0, finishTime := some 300000,
        totalTime := some 300, status := ResultStatus.Finished, position := none,
        notes := none },
      { id := 21, race := 1, rider := 3, startTime := some 0, finishTime := some 100000,
        totalTime := some 100, status := ResultStatus.Finished, position := none,
        notes := none },
      { id := 22, race := 1, rider := 4, startTime := some 0, finishTime := none,
        totalTime := none, status := ResultStatus.Started, position := none,
        notes := none },
      { id := 23, race := 1, rider := 5, startTime := some 0, finishTime := some 200000,
        totalTime := some 200, status := ResultStatus.Finished, position := none,
        notes := none }],
    riders := [2, 3, 4, 5] }

/-- Claim C6 — formatTime reference values and rendering shape:
`formatTime(3661) = "1:01:01"`, `formatTime(125) = "2:05"`,
`formatTime(59) = "0:59"`, `formatTime(0) = null`, `formatTime(null) =
null`; null/zero input yields null; inputs ≥ 3600 s render as `H:MM:SS`
(minutes and seconds zero-padded to two digits); positive inputs < 3600 s
render as `M:SS` with minutes unpadded and seconds zero-padded. -/
theorem formatTime_reference_values :
    formatTime (some 3661) = some "1:01:01" ∧
    formatTime (some 125) = some "2:05" ∧
    formatTime (some 59) = some "0:59" ∧
    formatTime (some 0) = none ∧
    formatTime none = none ∧
    (∀ n : Nat, 3600 ≤ n →
      formatTime (some (n : Int)) =
        some (toString (n / 3600) ++ ":" ++ padStart2 (toString (n % 3600 / 60)) ++
          ":" ++ padStart2 (toString (n % 60)))) ∧
    (∀ n : Nat, 0 < n → n < 3600 →
      formatTime (some (n : Int)) =
        some (toString (n / 60) ++ ":" ++ padStart2 (toString (n % 60)))) := by
  refine ⟨by decide, by decide, by decide, by decide, rfl, ?_, ?_⟩
  · intro n hn
    have hne : ((n : Int) == 0) = false := by
      simp only [beq_eq_false_iff_ne, ne_eq]
      omega
    simp only [formatTime, hne, Bool.false_eq_true, if_false]
    have hfdiv : Int.fdiv (n : Int) 3600 = ((n / 3600 : Nat) : Int) := by
      rw [Int.fdiv_eq_ediv _ (by omega)]
      norm_cast
    have htmod : Int.tmod (n : Int) 3600 = ((n % 3600 : Nat) : Int) := by
      rw [Int.tmod_eq_emod (by omega) (by omega)]
      norm_cast
    have hfdiv2 : Int.fdiv ((n % 3600 : Nat) : Int) 60 = ((n % 3600 / 60 : Nat) : Int) := by
      rw [Int.fdiv_eq_ediv _ (by omega)]
      norm_cast
    have htmod2 : Int.tmod (n : Int) 60 = ((n % 60 : Nat) : Int) := by
      rw [Int.tmod_eq_emod (by omega) (by omega)]
      norm_cast
    have hpos : (0 : Int) < ((n / 3600 : Nat) : Int) := by omega
    simp only [hfdiv, htmod, hfdiv2, htmod2, if_pos hpos]
    rfl
  · intro n hn hlt
    have hne : ((n : Int) == 0) = false := by
      simp only [beq_eq_false_iff_ne, ne_eq]
      omega
    simp only [formatTime, hne, Bool.false_eq_true, if_false]
    have hfdiv : Int.fdiv (n : Int) 3600 = ((n / 3600 : Nat) : Int) := by
      rw [Int.fdiv_eq_ediv _ (by omega)]
      norm_cast
    have htmod : Int.tmod (n : Int) 3600 = ((n % 3600 : Nat) : Int) := by
      rw [Int.tmod_eq_emod (by omega) (by omega)]
      norm_cast
    have hfdiv2 : Int.fdiv ((n % 3600 : Nat) : Int) 60 = ((n % 3600 / 60 : Nat) : Int) := by
      rw [Int.fdiv_eq_ediv _ (by omega)]
      norm_cast
    have htmod2 : Int.tmod (n : Int) 60 = ((n % 60 : Nat) : Int) := by
      rw [Int.tmod_eq_emod (by omega) (by omega)]
      norm_cast
    have hz : n / 3600 = 0 := Nat.div_eq_of_lt hlt
    have hnpos : ¬ ((0:Int) < ((n / 3600 : Nat) : Int)) := by omega
    simp only [hfdiv, htmod, hfdiv2, htmod2, if_neg hnpos]
    have hm : n % 3600 = n := Nat.mod_eq_of_lt hlt
    rw [hm]
    rfl

/-- Witness for C6: the general rendering clauses at 7322 s (= 2:02:02)
and 125 s. -/
theorem formatTime_reference_values_witness :
    formatTime (some ((7322 : Nat) : Int)) =
      some (toString (7322 / 3600) ++ ":" ++ padStart2 (toString (7322 % 3600 / 60)) ++
        ":" ++ padStart2 (toString (7322 % 60))) ∧
    formatTime (some ((125 : Nat) : Int)) =
      some (toString (125 / 60) ++ ":" ++ padStart2 (toString (125 % 60))) :=
  ⟨formatTime_reference_values.2.2.2.2.2.1 7322 (by decide),
   formatTime_reference_values.2.2.2.2.2.2 125 (by decide) (by decide)⟩

/-- Claim C5 — registration contract (code bug): the error paths behave
as specified ("Race not found", "Rider not found", "Rider already
registered for this race"), but the success path can never succeed: the
document `registerParticipant` builds has no `startTime`, while
`raceResultSchema` requires one, so `save()` always throws a mongoose
`ValidationError` instead of creating the Registered result the spec
describes. -/
theorem registerParticipant_schema_rejects :
    registerParticipant demoReg 9 2 = Except.error "Race not found" ∧
    registerParticipant demoReg 1 99 = Except.error "Rider not found" ∧
    registerParticipant demoReg2 1 2 =
      Except.error "Rider already registered for this race" ∧
    registerParticipant demoReg 1 2 =
      Except.error
        "RaceResult validation failed: startTime: Path `startTime` is required." := by
  refine ⟨rfl, rfl, rfl, rfl⟩

/-- Claim C8 — concurrent exactly-once finish (code bug): `finishRider`
is a plain `findOne` (read phase, `finishRiderLookup`) followed by an
unguarded `findByIdAndUpdate` (write phase, `finishRiderCommit`), not an
atomic conditional update.  In the interleaving read₁ · read₂ · write₁ ·
write₂, both overlapping calls read the same Started document and both
writes complete, so **both** calls return successfully — contradicting
"exactly one succeeds and the other fails with 'not started yet'". -/
theorem concurrent_finish_both_succeed :
    finishRiderLookup demoStarted 1 2 = some demoC8found ∧
    (finishRiderCommit demoStarted demoC8found 1 105000).2.isSome = true ∧
    ((finishRiderCommit (finishRiderCommit demoStarted demoC8found 1 105000).1
      demoC8found 1 106000).2).isSome = true ∧
    finishRider demoStarted 1 2 105000 =
      Except.ok (finishRiderCommit demoStarted demoC8found 1 105000) := by
  refine ⟨by decide, by decide, by decide, rfl⟩

/-- Claim C9 (counterexample) — `canRaceBeStarted` does **not** propagate
infrastructure errors: its `catch` block converts any store error into
the normal, non-error return value `{ canStart: false, reason: 'Error
checking race eligibility' }`, discarding the original message. -/
theorem canRaceBeStarted_swallow_counterexample :
    canRaceBeStarted (Except.error "store unreachable") false 0 =
      { canStart := false, reason := some "Error checking race eligibility" } ∧
    some "Error checking race eligibility" ≠ some "store unreachable" := by
  refine ⟨rfl, by decide⟩

/-- Claim C9 (amended) — error propagation: `finishRace` rethrows a store
error unchanged; failed precondition checks (here: finishing a race that
is not InProgress) produce an error before any mutation (the error branch
of the `Except` carries no store state, and the status check precedes the
update call); the exception is `canRaceBeStarted`, whose `catch` block
returns the fixed non-error value instead. -/
theorem error_propagation_amended :
    (∀ (e : String) (s : StoreState) (raceId : Nat) (now : Int),
      finishRace (Except.error e) s raceId now = Except.error e) ∧
    (∀ (e : String) (b : Bool) (now : Int),
      canRaceBeStarted (Except.error e) b now =
        { canStart := false, reason := some "Error checking race eligibility" }) ∧
    (∀ (s : StoreState) (raceId : Nat) (now : Int) (race : Race),
      race.status ≠ RaceStatus.InProgress →
      finishRace (Except.ok (some race)) s raceId now =
        Except.error "Only races in progress can be finished") := by
  refine ⟨fun e s raceId now => rfl, fun e b now => rfl, fun s raceId now race h => ?_⟩
  have hb : (race.status != RaceStatus.InProgress) = true := by
    simpa [bne_iff_ne] using h
  simp [finishRace, hb]

/-- Witness for the amended C9 theorem: the precondition clause applied
to the Open sample race. -/
theorem error_propagation_amended_witness :
    finishRace (Except.ok (some demoRace)) demoReg 1 99 =
      Except.error "Only races in progress can be finished" :=
  error_propagation_amended.2.2 demoReg 1 99 demoRace (by decide)

/-- Claim C2 (counterexample) — the derived-time invariant does not
survive `updateRiderStatus`: starting from a store satisfying the
invariant, the administrative call `updateRiderStatus(1, 2, 'Finished')`
yields a result whose status is Finished but whose `totalTime` is still
absent (the patch never writes `totalTime`), so "totalTime is defined iff
status = Finished" fails after the operation. -/
theorem derived_time_counterexample :
    derivedTimeInv demoPlain = true ∧
    updateRiderStatus demoPlain 1 2 "Finished" none 7000 =
      Except.ok demoAdminFinPair ∧
    demoAdminFinPair.2.status = ResultStatus.Finished ∧
    demoAdminFinPair.2.totalTime = none ∧
    derivedTimeInv demoAdminFinPair.1 = false := by
  refine ⟨by decide, rfl, by decide, by decide, by decide⟩

theorem applyStatusUpdate_status (st : ResultStatus) (notes : Option String)
    (now : Int) (r : RaceResult) : (applyStatusUpdate st notes now r).status = st := by
  unfold applyStatusUpdate
  cases notes <;> dsimp only <;> split <;> first | rfl | (split <;> rfl)

theorem applyStatusUpdate_totalTime (st : ResultStatus) (notes : Option String)
    (now : Int) (r : RaceResult) :
    (applyStatusUpdate st notes now r).totalTime = r.totalTime := by
  unfold applyStatusUpdate
  cases notes <;> dsimp only <;> split <;> first | rfl | (split <;> rfl)

theorem applyStatusUpdate_finishTime_dnfdsq (st : ResultStatus)
    (notes : Option String) (now : Int) (r : RaceResult)
    (h : st = ResultStatus.DNF ∨ st = ResultStatus.DSQ) :
    (applyStatusUpdate st notes now r).finishTime = some now := by
  have hb : (st == ResultStatus.DNF || st == ResultStatus.DSQ) = true := by
    rcases h with h | h <;> subst h <;> rfl
  unfold applyStatusUpdate
  simp only [hb, if_true]

theorem findOneAndUpdateByPair_none_iff (raceId riderId : Nat)
    (f : RaceResult → RaceResult) (l : List RaceResult) :
    (findOneAndUpdateByPair raceId riderId f l).2 = none ↔
      ∀ r ∈ l, ¬(r.race = raceId ∧ r.rider = riderId) := by
  induction l with
  | nil => simp [findOneAndUpdateByPair]
  | cons r rs ih =>
    by_cases h : r.race = raceId ∧ r.rider = riderId
    · have hb : (r.race == raceId && r.rider == riderId) = true := by
        simp [h.1, h.2]
      simp [findOneAndUpdateByPair, hb, h]
    · have hb : (r.race == raceId && r.rider == riderId) = false := by
        rcases not_and_or.mp h with h1 | h1 <;> simp [h1]
      simp only [findOneAndUpdateByPair, hb, Bool.false_eq_true, if_false]
      simp only [List.mem_cons]
      constructor
      · intro hn x hx
        rcases hx with hx | hx
        · subst hx
          exact h
        · exact (ih.mp hn) x hx
      · intro hall
        exact ih.mpr fun x hx => hall x (Or.inr hx)

theorem findOneAndUpdateByPair_some_of_mem (raceId riderId : Nat)
    (f : RaceResult → RaceResult) (l : List RaceResult) (r0 : RaceResult)
    (hm : r0 ∈ l) (hr : r0.race = raceId) (hrid : r0.rider = riderId) :
    ∃ r1, r1 ∈ l ∧ (findOneAndUpdateByPair raceId riderId f l).2 = some (f r1) := by
  induction l with
  | nil => cases hm
  | cons r rs ih =>
    by_cases h : (r.race == raceId && r.rider == riderId) = true
    · exact ⟨r, List.mem_cons_self r rs, by simp [findOneAndUpdateByPair, h]⟩
    · have hb : (r.race == raceId && r.rider == riderId) = false := by
        simpa using h
      have hm' : r0 ∈ rs := by
        rcases List.mem_cons.mp hm with he | hm'
        · subst he
          simp [hr, hrid] at hb
        · exact hm'
      rcases ih hm' with ⟨r1, hr1, heq⟩
      exact ⟨r1, List.mem_cons_of_mem r hr1, by simp [findOneAndUpdateByPair, hb, heq]⟩

theorem findOneAndUpdateByPair_map_totalTime (raceId riderId : Nat)
    (f : RaceResult → RaceResult) (hf : ∀ r, (f r).totalTime = r.totalTime)
    (l : List RaceResult) :
    ((findOneAndUpdateByPair raceId riderId f l).1).map (fun r => r.totalTime) =
      l.map (fun r => r.totalTime) := by
  induction l with
  | nil => rfl
  | cons r rs ih =>
    by_cases h : (r.race == raceId && r.rider == riderId) = true
    · simp [findOneAndUpdateByPair, h, hf r]
    · have hb : (r.race == raceId && r.rider == riderId) = false := by simpa using h
      simp [findOneAndUpdateByPair, hb, ih]

/-- Claim C10 — `updateRiderStatus` enforces no lifecycle ordering: it
fails with "Invalid status" exactly when the raw string is not one of the
five enum values (this check precedes any store write), fails with
"Rider not found in this race" when no (race, rider) result exists, and
otherwise succeeds **whatever** the result's current status is, setting
the requested status. -/
theorem updateRiderStatus_contract :
    (∀ (s : StoreState) (raceId riderId : Nat) (status : String)
       (notes : Option String) (now : Int), parseStatus status = none →
      updateRiderStatus s raceId riderId status notes now =
        Except.error "Invalid status") ∧
    (∀ (s : StoreState) (raceId riderId : Nat) (status : String)
       (notes : Option String) (now : Int) (st : ResultStatus),
      parseStatus status = some st →
      (∀ r ∈ s.results, ¬(r.race = raceId ∧ r.rider = riderId)) →
      updateRiderStatus s raceId riderId status notes now =
        Except.error "Rider not found in this race") ∧
    (∀ (s : StoreState) (raceId riderId : Nat) (status : String)
       (notes : Option String) (now : Int) (st : ResultStatus) (r0 : RaceResult),
      parseStatus status = some st →
      r0 ∈ s.results → r0.race = raceId → r0.rider = riderId →
      ∃ s2 res, updateRiderStatus s raceId riderId status notes now =
        Except.ok (s2, res) ∧ res.status = st) := by
  refine ⟨?_, ?_, ?_⟩
  · intro s raceId riderId status notes now hp
    simp [updateRiderStatus, hp]
  · intro s raceId riderId status notes now st hp hnone
    have h2 : (findOneAndUpdateByPair raceId riderId
        (applyStatusUpdate st notes now) s.results).2 = none :=
      (findOneAndUpdateByPair_none_iff raceId riderId _ s.results).mpr hnone
    simp [updateRiderStatus, hp, h2]
  · intro s raceId riderId status notes now st r0 hp hm hr hrid
    rcases findOneAndUpdateByPair_some_of_mem raceId riderId
      (applyStatusUpdate st notes now) s.results r0 hm hr hrid with ⟨r1, _, heq⟩
    refine ⟨{ s with results := (findOneAndUpdateByPair raceId riderId
        (applyStatusUpdate st notes now) s.results).1 },
      applyStatusUpdate st notes now r1, ?_, applyStatusUpdate_status st notes now r1⟩
    simp [updateRiderStatus, hp, heq]

/-- Witness for C10: the three clauses at concrete inputs — a bogus
status string, a rider with no result in the race, and the Registered
rider 2 being set straight to Finished (no lifecycle ordering). -/
theorem updateRiderStatus_contract_witness :
    updateRiderStatus demoPlain 1 2 "Bogus" none 7000 =
      Except.error "Invalid status" ∧
    updateRiderStatus demoPlain 1 99 "DNF" none 7000 =
      Except.error "Rider not found in this race" ∧
    ∃ s2 res, updateRiderStatus demoPlain 1 2 "Finished" none 7000 =
      Except.ok (s2, res) ∧ res.status = ResultStatus.Finished :=
  ⟨updateRiderStatus_contract.1 demoPlain 1 2 "Bogus" none 7000 (by decide),
   updateRiderStatus_contract.2.1 demoPlain 1 99 "DNF" none 7000
     ResultStatus.DNF (by decide) (by decide),
   updateRiderStatus_contract.2.2 demoPlain 1 2 "Finished" none 7000
     ResultStatus.Finished demoRegResult (by decide) (by decide) (by decide) (by decide)⟩

theorem resultTimeOK_set_position (r : RaceResult) (p : Option Nat) :
    resultTimeOK { r with position := p } = resultTimeOK r := rfl

theorem setPositionFirst_all (id pos : Nat) (l : List RaceResult) :
    (setPositionFirst id pos l).all resultTimeOK = l.all resultTimeOK := by
  induction l with
  | nil => rfl
  | cons r rs ih =>
    by_cases h : (r.id == id) = true
    · simp [setPositionFirst, h, resultTimeOK_set_position]
    · have hb : (r.id == id) = false := by simpa using h
      simp [setPositionFirst, hb, ih]

theorem applyPositions_all (L : List RaceResult) (i : Nat) (store : List RaceResult) :
    (applyPositions L i store).all resultTimeOK = store.all resultTimeOK := by
  induction L generalizing i store with
  | nil => rfl
  | cons r rs ih =>
    simp only [applyPositions]
    rw [ih, setPositionFirst_all]

theorem applyFinishById_all (now : Int) (r0 : RaceResult) (st0 : Int)
    (hst : r0.startTime = some st0) :
    ∀ (l : List RaceResult), (l.map (fun r => r.id)).Nodup → r0 ∈ l →
    l.all resultTimeOK = true →
    (applyFinishById r0.id now (jsTotalTime now r0.startTime) l).all resultTimeOK = true := by
  intro l
  induction l with
  | nil => intro _ hm _; cases hm
  | cons r rs ih =>
    intro hn hm hall
    simp only [List.map_cons, List.nodup_cons] at hn
    simp only [List.all_cons, Bool.and_eq_true] at hall
    by_cases h : (r.id == r0.id) = true
    · have heq : r0 = r := by
        rcases List.mem_cons.mp hm with he | hmem
        · exact he
        · exfalso
          have : r.id ∈ rs.map (fun r => r.id) := by
            have : r0.id ∈ rs.map (fun r => r.id) := List.mem_map_of_mem _ hmem
            simpa [beq_iff_eq.mp h] using this
          exact hn.1 this
      subst heq
      simp only [applyFinishById, h, if_true, List.all_cons, Bool.and_eq_true]
      refine ⟨?_, hall.2⟩
      simp [resultTimeOK, jsTotalTime, hst]
    · have hb : (r.id == r0.id) = false := by simpa using h
      have hmem : r0 ∈ rs := by
        rcases List.mem_cons.mp hm with he | hmem
        · exfalso
          subst he
          simp at hb
        · exact hmem
      simp only [applyFinishById, hb, Bool.false_eq_true, if_false, List.all_cons,
        Bool.and_eq_true]
      exact ⟨hall.1, ih hn.2 hmem hall.2⟩

theorem finishRiderCommit_fst (s : StoreState) (found : RaceResult) (raceId : Nat)
    (now : Int) :
    (finishRiderCommit s found raceId now).1 =
      updateRacePositionsRepo
        { s with results :=
            (applyFinishById found.id now (jsTotalTime now found.startTime) s.results) }
        raceId := by
  unfold finishRiderCommit updateRacePositionsService
  dsimp only
  split <;> rfl

theorem findOneAndUpdateByPair_some_shape (raceId riderId : Nat)
    (f : RaceResult → RaceResult) (l : List RaceResult) (res : RaceResult)
    (h : (findOneAndUpdateByPair raceId riderId f l).2 = some res) :
    ∃ r1, res = f r1 := by
  induction l with
  | nil => simp [findOneAndUpdateByPair] at h
  | cons r rs ih =>
    by_cases hb : (r.race == raceId && r.rider == riderId) = true
    · simp only [findOneAndUpdateByPair, hb, if_true, Option.some.injEq] at h
      exact ⟨r, h.symm⟩
    · have hb' : (r.race == raceId && r.rider == riderId) = false := by simpa using hb
      simp only [findOneAndUpdateByPair, hb', Bool.false_eq_true, if_false] at h
      exact ih h

/-- Claim C2 (amended) — derived time: a successful `finishRider`
preserves the store-wide derived-time invariant (`totalTime` defined iff
Finished, equal to `⌊(finishTime − startTime)/1000⌋`), given the schema
guarantees (unique ids, `startTime` present); `updateRiderStatus` never
writes `totalTime` (every result's `totalTime` is unchanged, whatever
status is set), and for DNF/DSQ it sets `finishTime = now`.  It therefore
does *not* enforce the invariant — which is exactly what the
counterexample exhibits. -/
theorem derived_time_amended :
    (∀ (s : StoreState) (raceId riderId : Nat) (now : Int)
       (p : StoreState × Option EnrichedResult),
      WFState s → startTimesPresent s = true → derivedTimeInv s = true →
      finishRider s raceId riderId now = Except.ok p →
      derivedTimeInv p.1 = true) ∧
    (∀ (s : StoreState) (raceId riderId : Nat) (status : String)
       (notes : Option String) (now : Int) (p : StoreState × RaceResult),
      updateRiderStatus s raceId riderId status notes now = Except.ok p →
      p.1.results.map (fun r => r.totalTime) = s.results.map (fun r => r.totalTime)) ∧
    (∀ (s : StoreState) (raceId riderId : Nat) (status : String)
       (notes : Option String) (now : Int) (st : ResultStatus)
       (p : StoreState × RaceResult),
      parseStatus status = some st →
      (st = ResultStatus.DNF ∨ st = ResultStatus.DSQ) →
      updateRiderStatus s raceId riderId status notes now = Except.ok p →
      p.2.finishTime = some now) := by
  refine ⟨?_, ?_, ?_⟩
  · intro s raceId riderId now p hwf hstp hinv h
    cases hl : finishRiderLookup s raceId riderId with
    | none => simp [finishRider, hl] at h
    | some r0 =>
      simp only [finishRider, hl, Except.ok.injEq] at h
      subst h
      have hmem : r0 ∈ s.results := List.mem_of_find?_eq_some hl
      have hsome : r0.startTime.isSome = true := by
        simp only [startTimesPresent, List.all_eq_true] at hstp
        exact hstp r0 hmem
      rcases Option.isSome_iff_exists.mp hsome with ⟨st0, hst⟩
      rw [finishRiderCommit_fst]
      simp only [derivedTimeInv, updateRacePositionsRepo]
      rw [applyPositions_all]
      exact applyFinishById_all now r0 st0 hst s.results hwf.2.1 hmem hinv
  · intro s raceId riderId status notes now p h
    cases hp : parseStatus status with
    | none => simp [updateRiderStatus, hp] at h
    | some st =>
      simp only [updateRiderStatus, hp] at h
      cases hq : (findOneAndUpdateByPair raceId riderId
          (applyStatusUpdate st notes now) s.results).2 with
      | none => simp [hq] at h
      | some res =>
        simp only [hq, Except.ok.injEq] at h
        subst h
        exact findOneAndUpdateByPair_map_totalTime raceId riderId _
          (applyStatusUpdate_totalTime st notes now) s.results
  · intro s raceId riderId status notes now st p hp hdnf h
    simp only [updateRiderStatus, hp] at h
    cases hq : (findOneAndUpdateByPair raceId riderId
        (applyStatusUpdate st notes now) s.results).2 with
    | none => simp [hq] at h
    | some res =>
      simp only [hq, Except.ok.injEq] at h
      subst h
      rcases findOneAndUpdateByPair_some_shape raceId riderId _ s.results res hq
        with ⟨r1, hr1⟩
      simpa [hr1] using applyStatusUpdate_finishTime_dnfdsq st notes now r1 hdnf

/-- Witness for the amended C2 theorem: the invariant survives the
concrete finish of rider 2, and the concrete DNF stamps `finishTime`. -/
theorem derived_time_amended_witness :
    derivedTimeInv demoFinPair.1 = true ∧
    demoDnfPair.2.finishTime = some 8000 :=
  ⟨derived_time_amended.1 demoStarted 1 2 105000 demoFinPair (by decide) (by decide)
     (by decide) rfl,
   derived_time_amended.2.2 demoPlain 1 2 "DNF" (some "Mechanical failure") 8000
     ResultStatus.DNF demoDnfPair (by decide) (Or.inl rfl) rfl⟩

theorem updateRaceFirst_ids (races : List Race) (raceId : Nat) (f : Race → Race)
    (hf : ∀ r, (f r).id = r.id) :
    ((updateRaceFirst races raceId f).1).map (fun r => r.id) =
      races.map (fun r => r.id) := by
  induction races with
  | nil => rfl
  | cons r rs ih =>
    by_cases hb : (r.id == raceId) = true
    · simp [updateRaceFirst, hb, hf r]
    · have hb' : (r.id == raceId) = false := by simpa using hb
      simp [updateRaceFirst, hb', ih]

theorem updateRaceFirst_mem (races : List Race) (raceId : Nat) (f : Race → Race)
    (hn : (races.map (fun r => r.id)).Nodup) :
    ∀ x ∈ (updateRaceFirst races raceId f).1, x.id = raceId →
      ∃ y, y ∈ races ∧ x = f y := by
  induction races with
  | nil => intro x hx; cases hx
  | cons r rs ih =>
    simp only [List.map_cons, List.nodup_cons] at hn
    intro x hx hxid
    by_cases hb : (r.id == raceId) = true
    · simp only [updateRaceFirst, hb, if_true] at hx
      rcases List.mem_cons.mp hx with he | hmem
      · exact ⟨r, List.mem_cons_self r rs, he⟩
      · exfalso
        apply hn.1
        have : x.id ∈ rs.map (fun r => r.id) := List.mem_map_of_mem _ hmem
        simpa [hxid, beq_iff_eq.mp hb] using this
    · have hb' : (r.id == raceId) = false := by simpa using hb
      simp only [updateRaceFirst, hb', Bool.false_eq_true, if_false] at hx
      rcases List.mem_cons.mp hx with he | hmem
      · exfalso
        subst he
        simp [hxid] at hb'
      · rcases ih hn.2 x hmem hxid with ⟨y, hy, hxy⟩
        exact ⟨y, List.mem_cons_of_mem r hy, hxy⟩

theorem ite_store_results (c : Prop) [Decidable c] (s : StoreState) (L : List Race) :
    (if c then { s with races := L } else s).results = s.results := by
  split <;> rfl

theorem ite_store_races (c : Prop) [Decidable c] (s : StoreState) (L : List Race) :
    (if c then { s with races := L } else s).races = if c then L else s.races := by
  split <;> rfl

theorem massStartUpdate_hit (raceId : Nat) (now : Int) (r : RaceResult)
    (h1 : r.race = raceId) (h2 : r.status = ResultStatus.Registered) :
    massStartUpdate raceId now r =
      { r with status := ResultStatus.Started, startTime := some now } := by
  simp [massStartUpdate, h1, h2]

theorem massStart_results_get (l : List RaceResult) (raceId : Nat) (now : Int)
    (i : Nat) (hi : i < l.length)
    (hi1 : i < (l.map (massStartUpdate raceId now)).length)
    (hrace : (l.get ⟨i, hi⟩).race = raceId)
    (hreg : (l.get ⟨i, hi⟩).status = ResultStatus.Registered) :
    ((l.map (massStartUpdate raceId now)).get ⟨i, hi1⟩).status = ResultStatus.Started ∧
    ((l.map (massStartUpdate raceId now)).get ⟨i, hi1⟩).startTime = some now := by
  rw [List.get_eq_getElem, List.getElem_map]
  rw [List.get_eq_getElem] at hrace hreg
  rw [massStartUpdate_hit raceId now _ hrace hreg]
  exact ⟨rfl, rfl⟩

theorem massStart_races_mem (L1 : List Race) (raceId : Nat) (now : Int)
    (hn : (L1.map (fun r => r.id)).Nodup) :
    ∀ x ∈ (updateRaceFirst L1 raceId (fun r =>
      { r with status := RaceStatus.InProgress, startTime := some now })).1,
      x.id = raceId → x.status = RaceStatus.InProgress ∧ x.startTime = some now := by
  intro x hx hxid
  rcases updateRaceFirst_mem L1 raceId _ hn x hx hxid with ⟨y, _, hxy⟩
  subst hxy
  exact ⟨rfl, rfl⟩

/-- Claim C1 — mass start coherence: when `startRace` succeeds, the
returned `massStartTime` is the wall-clock instant of the call; every
result of the race that was Registered beforehand is now Started with
`startTime` equal to that one shared instant; and every stored race with
the given id is InProgress with its `startTime` overwritten by the same
instant. -/
theorem startRace_mass_start_coherence :
    ∀ (s : StoreState) (raceId : Nat) (now : Int) (p : StoreState × StartOutput),
      WFState s → startRace s raceId now = Except.ok p →
      p.2.massStartTime = now ∧
      p.1.results.length = s.results.length ∧
      (∀ (i : Nat) (hi : i < s.results.length) (hi1 : i < p.1.results.length),
        (s.results.get ⟨i, hi⟩).race = raceId →
        (s.results.get ⟨i, hi⟩).status = ResultStatus.Registered →
        (p.1.results.get ⟨i, hi1⟩).status = ResultStatus.Started ∧
        (p.1.results.get ⟨i, hi1⟩).startTime = some p.2.massStartTime) ∧
      (∀ race1 ∈ p.1.races, race1.id = raceId →
        race1.status = RaceStatus.InProgress ∧
        race1.startTime = some p.2.massStartTime) := by
  intro s raceId now p hwf h
  cases hfind : findRace s raceId with
  | none => simp [startRace, hfind] at h
  | some race =>
    simp only [startRace, hfind] at h
    split at h <;> split at h
    · exact absurd h (by simp)
    · rw [Except.ok.injEq] at h
      subst h
      have hnod : (((updateRaceFirst s.races raceId
          (fun r => { r with status := RaceStatus.Open })).1).map
            (fun r => r.id)).Nodup := by
        rw [updateRaceFirst_ids s.races raceId
          (fun r => { r with status := RaceStatus.Open }) (fun r => rfl)]
        exact hwf.1
      exact ⟨rfl, by simp,
        fun i hi hi1 hrace hreg =>
          massStart_results_get s.results raceId now i hi hi1 hrace hreg,
        fun race1 hmem hid =>
          massStart_races_mem _ raceId now hnod race1 hmem hid⟩
    · exact absurd h (by simp)
    · rw [Except.ok.injEq] at h
      subst h
      exact ⟨rfl, by simp,
        fun i hi hi1 hrace hreg =>
          massStart_results_get s.results raceId now i hi hi1 hrace hreg,
        fun race1 hmem hid =>
          massStart_races_mem s.races raceId now hwf.1 race1 hmem hid⟩

/-- Witness for C1: the sample Open race with two Registered riders,
mass-started at instant 5000. -/
theorem startRace_mass_start_coherence_witness :
    demoStartPair.2.massStartTime = 5000 ∧
    demoStartPair.1.results.length = demoOpen.results.length ∧
    (∀ (i : Nat) (hi : i < demoOpen.results.length)
       (hi1 : i < demoStartPair.1.results.length),
      (demoOpen.results.get ⟨i, hi⟩).race = 1 →
      (demoOpen.results.get ⟨i, hi⟩).status = ResultStatus.Registered →
      (demoStartPair.1.results.get ⟨i, hi1⟩).status = ResultStatus.Started ∧
      (demoStartPair.1.results.get ⟨i, hi1⟩).startTime =
        some demoStartPair.2.massStartTime) ∧
    (∀ race1 ∈ demoStartPair.1.races, race1.id = 1 →
      race1.status = RaceStatus.InProgress ∧
      race1.startTime = some demoStartPair.2.massStartTime) :=
  startRace_mass_start_coherence demoOpen 1 5000 demoStartPair (by decide) rfl

theorem mem_applyFinishById (now : Int) (tt : Option Int) (r0 : RaceResult) :
    ∀ (l : List RaceResult), (l.map (fun r => r.id)).Nodup → r0 ∈ l →
    ∀ x ∈ applyFinishById r0.id now tt l,
      x.status = ResultStatus.Finished ∨ (x ∈ l ∧ x.id ≠ r0.id) := by
  intro l
  induction l with
  | nil => intro _ hm; cases hm
  | cons r rs ih =>
    intro hn hm x hx
    simp only [List.map_cons, List.nodup_cons] at hn
    by_cases hb : (r.id == r0.id) = true
    · simp only [applyFinishById, hb, if_true] at hx
      rcases List.mem_cons.mp hx with he | hmem
      · subst he
        exact Or.inl rfl
      · refine Or.inr ⟨List.mem_cons_of_mem r hmem, fun hc => ?_⟩
        apply hn.1
        have : x.id ∈ rs.map (fun r => r.id) := List.mem_map_of_mem _ hmem
        simpa [hc, beq_iff_eq.mp hb] using this
    · have hb' : (r.id == r0.id) = false := by simpa using hb
      have hm' : r0 ∈ rs := by
        rcases List.mem_cons.mp hm with he | hm'
        · subst he
          simp at hb'
        · exact hm'
      simp only [applyFinishById, hb', Bool.false_eq_true, if_false] at hx
      rcases List.mem_cons.mp hx with he | hmem
      · subst he
        exact Or.inr ⟨List.mem_cons_self x rs, by simpa using hb'⟩
      · rcases ih hn.2 hm' x hmem with hfin | ⟨hmem2, hne⟩
        · exact Or.inl hfin
        · exact Or.inr ⟨List.mem_cons_of_mem r hmem2, hne⟩

theorem mem_setPositionFirst (id pos : Nat) (store : List RaceResult) :
    ∀ x ∈ setPositionFirst id pos store, ∃ y, y ∈ store ∧
      x.race = y.race ∧ x.rider = y.rider ∧ x.status = y.status := by
  induction store with
  | nil => intro x hx; cases hx
  | cons r rs ih =>
    intro x hx
    by_cases hb : (r.id == id) = true
    · simp only [setPositionFirst, hb, if_true] at hx
      rcases List.mem_cons.mp hx with he | hmem
      · subst he
        exact ⟨r, List.mem_cons_self r rs, rfl, rfl, rfl⟩
      · exact ⟨x, List.mem_cons_of_mem r hmem, rfl, rfl, rfl⟩
    · have hb' : (r.id == id) = false := by simpa using hb
      simp only [setPositionFirst, hb', Bool.false_eq_true, if_false] at hx
      rcases List.mem_cons.mp hx with he | hmem
      · subst he
        exact ⟨x, List.mem_cons_self x rs, rfl, rfl, rfl⟩
      · rcases ih x hmem with ⟨y, hy, h1, h2, h3⟩
        exact ⟨y, List.mem_cons_of_mem r hy, h1, h2, h3⟩

theorem mem_applyPositions (L : List RaceResult) :
    ∀ (i : Nat) (store : List RaceResult), ∀ x ∈ applyPositions L i store,
      ∃ y, y ∈ store ∧ x.race = y.race ∧ x.rider = y.rider ∧ x.status = y.status := by
  induction L with
  | nil => intro i store x hx; exact ⟨x, hx, rfl, rfl, rfl⟩
  | cons r rs ih =>
    intro i store x hx
    rcases ih (i + 1) (setPositionFirst r.id (i + 1) store) x hx with ⟨y, hy, h1, h2, h3⟩
    rcases mem_setPositionFirst r.id (i + 1) store y hy with ⟨z, hz, g1, g2, g3⟩
    exact ⟨z, hz, h1.trans g1, h2.trans g2, h3.trans g3⟩

/-- Claim C3 — finish precondition and sequential exactly-once:
`finishRider` succeeds exactly when a Started result exists for the
(race, rider) pair; otherwise it fails with "Rider not found or not
started yet"; and after one successful call, a second call for the same
pair fails with that same message, because the success moved the pair's
unique result out of Started. -/
theorem finishRider_started_precondition :
    (∀ (s : StoreState) (raceId riderId : Nat) (now : Int),
      (∀ r ∈ s.results,
        ¬(r.race = raceId ∧ r.rider = riderId ∧ r.status = ResultStatus.Started)) →
      finishRider s raceId riderId now =
        Except.error "Rider not found or not started yet") ∧
    (∀ (s : StoreState) (raceId riderId : Nat) (now : Int) (r0 : RaceResult),
      r0 ∈ s.results → r0.race = raceId → r0.rider = riderId →
      r0.status = ResultStatus.Started →
      ∃ p, finishRider s raceId riderId now = Except.ok p) ∧
    (∀ (s : StoreState) (raceId riderId : Nat) (now now2 : Int)
       (p : StoreState × Option EnrichedResult),
      WFState s → finishRider s raceId riderId now = Except.ok p →
      finishRider p.1 raceId riderId now2 =
        Except.error "Rider not found or not started yet") := by
  refine ⟨?_, ?_, ?_⟩
  · intro s raceId riderId now hall
    have hl : finishRiderLookup s raceId riderId = none := by
      rw [finishRiderLookup, List.find?_eq_none]
      intro x hx hpx
      simp only [Bool.and_eq_true, beq_iff_eq] at hpx
      exact hall x hx ⟨hpx.1.1, hpx.1.2, hpx.2⟩
    simp [finishRider, hl]
  · intro s raceId riderId now r0 hm hr hrid hst
    cases hl : finishRiderLookup s raceId riderId with
    | none =>
      rw [finishRiderLookup, List.find?_eq_none] at hl
      exact absurd (by simp [hr, hrid, hst]) (hl r0 hm)
    | some found =>
      exact ⟨finishRiderCommit s found raceId now, by simp [finishRider, hl]⟩
  · intro s raceId riderId now now2 p hwf h
    cases hl : finishRiderLookup s raceId riderId with
    | none => simp [finishRider, hl] at h
    | some r0 =>
      simp only [finishRider, hl, Except.ok.injEq] at h
      subst h
      rw [finishRiderLookup] at hl
      have hmem : r0 ∈ s.results := List.mem_of_find?_eq_some hl
      have hp := List.find?_some hl
      simp only [Bool.and_eq_true, beq_iff_eq] at hp
      have hnone : finishRiderLookup (finishRiderCommit s r0 raceId now).1
          raceId riderId = none := by
        rw [finishRiderCommit_fst, finishRiderLookup, List.find?_eq_none]
        intro x hx hpx
        simp only [Bool.and_eq_true, beq_iff_eq] at hpx
        simp only [updateRacePositionsRepo] at hx
        rcases mem_applyPositions _ 0 _ x hx with ⟨y, hy, e1, e2, e3⟩
        rcases mem_applyFinishById now (jsTotalTime now r0.startTime) r0
          s.results hwf.2.1 hmem y hy with hfin | ⟨hymem, hyne⟩
        · rw [e3, hfin] at hpx
          cases hpx.2
        · have hpair : y = r0 := by
            have hinj := List.inj_on_of_nodup_map hwf.2.2
            apply hinj hymem hmem
            rw [← e1, ← e2, hpx.1.1, hpx.1.2, hp.1.1, hp.1.2]
          exact hyne (by rw [hpair])
      simp [finishRider, hnone]

/-- Witness for C3: rider 2's concrete finish — the second attempt fails
with the lookup message, and rider 99 (no result at all) fails likewise. -/
theorem finishRider_started_precondition_witness :
    finishRider demoStarted 1 99 105000 =
      Except.error "Rider not found or not started yet" ∧
    (∃ p, finishRider demoStarted 1 2 105000 = Except.ok p) ∧
    finishRider demoFinPair.1 1 2 205000 =
      Except.error "Rider not found or not started yet" :=
  ⟨finishRider_started_precondition.1 demoStarted 1 99 105000 (by decide),
   finishRider_started_precondition.2.1 demoStarted 1 2 105000 demoC8found
     (by decide) (by decide) (by decide) (by decide),
   finishRider_started_precondition.2.2 demoStarted 1 2 105000 205000 demoFinPair
     (by decide) rfl⟩

theorem list_map_self {α : Type} (l : List α) (f : α → α) (h : ∀ a ∈ l, f a = a) :
    l.map f = l := by
  rw [List.map_congr_left h]
  exact List.map_id' l

theorem posAssign_race (L : List RaceResult) (i : Nat) (x : RaceResult) :
    (posAssign L i x).race = x.race := by
  unfold posAssign
  split <;> rfl

theorem posAssign_rider (L : List RaceResult) (i : Nat) (x : RaceResult) :
    (posAssign L i x).rider = x.rider := by
  unfold posAssign
  split <;> rfl

theorem posAssign_status (L : List RaceResult) (i : Nat) (x : RaceResult) :
    (posAssign L i x).status = x.status := by
  unfold posAssign
  split <;> rfl

theorem posAssign_totalTime (L : List RaceResult) (i : Nat) (x : RaceResult) :
    (posAssign L i x).totalTime = x.totalTime := by
  unfold posAssign
  split <;> rfl

theorem posAssign_id (L : List RaceResult) (i : Nat) (x : RaceResult) :
    (posAssign L i x).id = x.id := by
  unfold posAssign
  split <;> rfl

theorem lookupRank_eq_none (id : Nat) :
    ∀ (l : List RaceResult) (i : Nat), id ∉ l.map (fun r => r.id) →
      lookupRank l i id = none := by
  intro l
  induction l with
  | nil => intro i _; rfl
  | cons r rs ih =>
    intro i h
    simp only [List.map_cons, List.mem_cons, not_or] at h
    have hb : (r.id == id) = false := by
      simp only [beq_eq_false_iff_ne, ne_eq]
      exact fun hc => h.1 hc.symm
    simp only [lookupRank, hb, Bool.false_eq_true, if_false]
    exact ih (i + 1) h.2

theorem lookupRank_isSome (id : Nat) :
    ∀ (l : List RaceResult) (i : Nat), id ∈ l.map (fun r => r.id) →
      ∃ p, lookupRank l i id = some p := by
  intro l
  induction l with
  | nil => intro i h; cases h
  | cons r rs ih =>
    intro i h
    by_cases hb : (r.id == id) = true
    · exact ⟨i + 1, by simp [lookupRank, hb]⟩
    · have hb' : (r.id == id) = false := by simpa using hb
      simp only [List.map_cons, List.mem_cons] at h
      rcases h with he | hmem
      · simp [he.symm] at hb'
      · rcases ih (i + 1) hmem with ⟨p, hp⟩
        exact ⟨p, by simp [lookupRank, hb', hp]⟩

theorem lookupRank_lower (id : Nat) :
    ∀ (l : List RaceResult) (i : Nat) (p : Nat), lookupRank l i id = some p →
      i + 1 ≤ p := by
  intro l
  induction l with
  | nil => intro i p h; cases h
  | cons r rs ih =>
    intro i p h
    by_cases hb : (r.id == id) = true
    · simp only [lookupRank, hb, if_true, Option.some.injEq] at h
      omega
    · have hb' : (r.id == id) = false := by simpa using hb
      simp only [lookupRank, hb', Bool.false_eq_true, if_false] at h
      have := ih (i + 1) p h
      omega

theorem setPositionFirst_eq_map (id pos : Nat) :
    ∀ (l : List RaceResult), (l.map (fun r => r.id)).Nodup →
      setPositionFirst id pos l =
        l.map (fun x => if x.id = id then { x with position := some pos } else x) := by
  intro l
  induction l with
  | nil => intro _; rfl
  | cons r rs ih =>
    intro hn
    simp only [List.map_cons, List.nodup_cons] at hn
    by_cases hb : (r.id == id) = true
    · have hr : r.id = id := beq_iff_eq.mp hb
      simp only [setPositionFirst, hb, if_true, List.map_cons, if_pos hr]
      congr 1
      refine (list_map_self rs _ ?_).symm
      intro a ha
      have hne : a.id ≠ id := by
        intro hc
        apply hn.1
        have : a.id ∈ rs.map (fun r => r.id) := List.mem_map_of_mem _ ha
        rw [hc, ← hr] at this
        exact this
      simp [hne]
    · have hb' : (r.id == id) = false := by simpa using hb
      have hr : ¬ r.id = id := by simpa using hb'
      simp only [setPositionFirst, hb', Bool.false_eq_true, if_false, List.map_cons,
        if_neg hr]
      rw [ih hn.2]

theorem map_ids_pres (g : RaceResult → RaceResult) (hid : ∀ x, (g x).id = x.id)
    (l : List RaceResult) :
    (l.map g).map (fun r => r.id) = l.map (fun r => r.id) := by
  rw [List.map_map]
  exact List.map_congr_left (fun a _ => hid a)

theorem posAssign_of_none (L : List RaceResult) (i : Nat) (x : RaceResult)
    (h : lookupRank L i x.id = none) : posAssign L i x = x := by
  unfold posAssign
  rw [h]

theorem posAssign_of_some (L : List RaceResult) (i : Nat) (x : RaceResult) (p : Nat)
    (h : lookupRank L i x.id = some p) :
    posAssign L i x = { x with position := some p } := by
  unfold posAssign
  rw [h]

theorem applyPositions_eq_map :
    ∀ (L : List RaceResult) (i : Nat) (store : List RaceResult),
      (store.map (fun r => r.id)).Nodup → (L.map (fun r => r.id)).Nodup →
      applyPositions L i store = store.map (posAssign L i) := by
  intro L
  induction L with
  | nil =>
    intro i store _ _
    exact (list_map_self store _ (fun a _ => rfl)).symm
  | cons r rs ih =>
    intro i store hstore hL
    simp only [List.map_cons, List.nodup_cons] at hL
    simp only [applyPositions]
    rw [setPositionFirst_eq_map r.id (i + 1) store hstore]
    set g : RaceResult → RaceResult :=
      fun x => if x.id = r.id then { x with position := some (i + 1) } else x with hg
    have hgid : ∀ x, (g x).id = x.id := by
      intro x
      rw [hg]
      dsimp only
      split <;> rfl
    rw [ih (i + 1) (store.map g) (by rw [map_ids_pres g hgid]; exact hstore) hL.2]
    rw [List.map_map]
    apply List.map_congr_left
    intro x _
    show posAssign rs (i + 1) (g x) = posAssign (r :: rs) i x
    by_cases hx : x.id = r.id
    · have hgx : g x = { x with position := some (i + 1) } := by
        rw [hg]
        dsimp only
        rw [if_pos hx]
      have hnone : lookupRank rs (i + 1) x.id = none := by
        apply lookupRank_eq_none
        rw [hx]
        exact hL.1
      have hb : (r.id == x.id) = true := by simp [hx]
      rw [hgx, posAssign_of_none rs (i + 1) { x with position := some (i + 1) } hnone,
        posAssign_of_some (r :: rs) i x (i + 1) (by simp [lookupRank, hb])]
    · have hgx : g x = x := by
        rw [hg]
        dsimp only
        rw [if_neg hx]
      have hb : (r.id == x.id) = false := by
        simp only [beq_eq_false_iff_ne, ne_eq]
        exact fun hc => hx hc.symm
      have hstep : lookupRank (r :: rs) i x.id = lookupRank rs (i + 1) x.id := by
        simp [lookupRank, hb]
      rw [hgx]
      unfold posAssign
      rw [hstep]

theorem lookupRank_map_ranks :
    ∀ (L : List RaceResult) (i : Nat), (L.map (fun r => r.id)).Nodup →
      L.map (fun x => lookupRank L i x.id) =
        (List.range L.length).map (fun j => some (i + j + 1)) := by
  intro L
  induction L with
  | nil => intro i _; rfl
  | cons r rs ih =>
    intro i hn
    simp only [List.map_cons, List.nodup_cons] at hn
    have hhead : lookupRank (r :: rs) i r.id = some (i + 1) := by
      simp [lookupRank]
    have htail : rs.map (fun x => lookupRank (r :: rs) i x.id) =
        rs.map (fun x => lookupRank rs (i + 1) x.id) := by
      apply List.map_congr_left
      intro a ha
      have hb : (r.id == a.id) = false := by
        simp only [beq_eq_false_iff_ne, ne_eq]
        intro hc
        apply hn.1
        rw [hc]
        exact List.mem_map_of_mem _ ha
      simp [lookupRank, hb]
    simp only [List.map_cons, hhead, htail, ih (i + 1) hn.2, List.length_cons,
      List.range_succ_eq_map, List.map_map]
    congr 1
    apply List.map_congr_left
    intro j _
    simp only [Function.comp_apply, Nat.succ_eq_add_one]
    congr 1
    omega

theorem lookupRank_map_id_pres (g : RaceResult → RaceResult)
    (hid : ∀ x, (g x).id = x.id) :
    ∀ (l : List RaceResult) (i : Nat) (id : Nat),
      lookupRank (l.map g) i id = lookupRank l i id := by
  intro l
  induction l with
  | nil => intro i id; rfl
  | cons r rs ih =>
    intro i id
    simp only [List.map_cons, lookupRank, hid r]
    by_cases hb : (r.id == id) = true
    · simp [hb]
    · have hb' : (r.id == id) = false := by simpa using hb
      simp [hb', ih]

theorem leTime_total (a b : RaceResult) : leTime a b = true ∨ leTime b a = true := by
  unfold leTime
  cases ha : a.totalTime <;> cases hb : b.totalTime <;> simp
  exact Int.le_total _ _

theorem leTime_trans (a b c : RaceResult) (h1 : leTime a b = true)
    (h2 : leTime b c = true) : leTime a c = true := by
  unfold leTime at h1 h2 ⊢
  cases ha : a.totalTime <;> cases hb : b.totalTime <;> cases hc : c.totalTime <;>
    simp_all
  omega

theorem mem_orderedInsert (r : RaceResult) :
    ∀ (l : List RaceResult) (x : RaceResult), x ∈ orderedInsert r l →
      x = r ∨ x ∈ l := by
  intro l
  induction l with
  | nil =>
    intro x hx
    simpa [orderedInsert] using hx
  | cons y ys ih =>
    intro x hx
    unfold orderedInsert at hx
    split at hx
    · rcases List.mem_cons.mp hx with he | hm
      · exact Or.inl he
      · exact Or.inr hm
    · rcases List.mem_cons.mp hx with he | hm
      · exact Or.inr (he ▸ List.mem_cons_self y ys)
      · rcases ih x hm with he | hm2
        · exact Or.inl he
        · exact Or.inr (List.mem_cons_of_mem y hm2)

theorem orderedInsert_perm (r : RaceResult) :
    ∀ (l : List RaceResult), List.Perm (orderedInsert r l) (r :: l) := by
  intro l
  induction l with
  | nil => exact List.Perm.refl _
  | cons y ys ih =>
    unfold orderedInsert
    split
    · exact List.Perm.refl _
    · exact List.Perm.trans (List.Perm.cons y ih) (List.Perm.swap r y ys)

theorem sortByTime_perm : ∀ (l : List RaceResult), List.Perm (sortByTime l) l := by
  intro l
  induction l with
  | nil => exact List.Perm.refl _
  | cons x xs ih =>
    unfold sortByTime
    exact List.Perm.trans (orderedInsert_perm x (sortByTime xs)) (List.Perm.cons x ih)

theorem orderedInsert_pairwise (r : RaceResult) :
    ∀ (l : List RaceResult),
      List.Pairwise (fun a b => leTime a b = true) l →
      List.Pairwise (fun a b => leTime a b = true) (orderedInsert r l) := by
  intro l
  induction l with
  | nil => intro _; exact List.pairwise_singleton _ r
  | cons y ys ih =>
    intro hp
    rcases List.pairwise_cons.mp hp with ⟨hy, hys⟩
    unfold orderedInsert
    split
    · rename_i hle
      refine List.pairwise_cons.mpr ⟨?_, hp⟩
      intro b hb
      rcases List.mem_cons.mp hb with he | hm
      · exact he ▸ hle
      · exact leTime_trans r y b hle (hy b hm)
    · rename_i hnle
      have hyr : leTime y r = true := by
        rcases leTime_total r y with h | h
        · exact absurd h hnle
        · exact h
      refine List.pairwise_cons.mpr ⟨?_, ih hys⟩
      intro b hb
      rcases mem_orderedInsert r ys b hb with he | hm
      · exact he ▸ hyr
      · exact hy b hm

theorem sortByTime_pairwise :
    ∀ (l : List RaceResult),
      List.Pairwise (fun a b => leTime a b = true) (sortByTime l) := by
  intro l
  induction l with
  | nil => exact List.Pairwise.nil
  | cons x xs ih => exact orderedInsert_pairwise x (sortByTime xs) ih

theorem leTime_map (g : RaceResult → RaceResult)
    (hg : ∀ x, (g x).totalTime = x.totalTime) (a b : RaceResult) :
    leTime (g a) (g b) = leTime a b := by
  unfold leTime
  rw [hg a, hg b]

theorem orderedInsert_map (g : RaceResult → RaceResult)
    (hg : ∀ x, (g x).totalTime = x.totalTime) (r : RaceResult) :
    ∀ (l : List RaceResult),
      orderedInsert (g r) (l.map g) = (orderedInsert r l).map g := by
  intro l
  induction l with
  | nil => rfl
  | cons y ys ih =>
    simp only [List.map_cons]
    unfold orderedInsert
    rw [leTime_map g hg r y]
    by_cases h : leTime r y = true
    · simp [h]
    · have h' : leTime r y = false := by simpa using h
      simp [h', ih]

theorem sortByTime_map (g : RaceResult → RaceResult)
    (hg : ∀ x, (g x).totalTime = x.totalTime) :
    ∀ (l : List RaceResult), sortByTime (l.map g) = (sortByTime l).map g := by
  intro l
  induction l with
  | nil => rfl
  | cons x xs ih =>
    simp only [List.map_cons]
    unfold sortByTime
    rw [ih, orderedInsert_map g hg]

theorem lookupRank_mono :
    ∀ (L : List RaceResult), (L.map (fun r => r.id)).Nodup →
      List.Pairwise (fun a b => leTime a b = true) L →
      ∀ (i : Nat) (a b : RaceResult) (pa pb : Nat) (ta tb : Int),
        a ∈ L → b ∈ L →
        lookupRank L i a.id = some pa → lookupRank L i b.id = some pb →
        a.totalTime = some ta → b.totalTime = some tb → ta < tb → pa < pb := by
  intro L
  induction L with
  | nil => intro _ _ i a b pa pb ta tb hma; cases hma
  | cons r rs ih =>
    intro hn hp i a b pa pb ta tb hma hmb hla hlb hta htb htab
    simp only [List.map_cons, List.nodup_cons] at hn
    rcases List.pairwise_cons.mp hp with ⟨hhead, htail⟩
    have hid_unique : ∀ x, x ∈ rs → x.id ≠ r.id := by
      intro x hx hc
      apply hn.1
      rw [← hc]
      exact List.mem_map_of_mem _ hx
    by_cases hra : (r.id == a.id) = true
    · have hae : a = r := by
        rcases List.mem_cons.mp hma with he | hm
        · exact he
        · exact absurd (beq_iff_eq.mp hra).symm (hid_unique a hm)
      have hbne : (r.id == b.id) = false := by
        by_cases hbe : b = r
        · exfalso
          have hab : a = b := by rw [hae, hbe]
          rw [hab, htb] at hta
          injection hta with hta'
          omega
        · simp only [beq_eq_false_iff_ne, ne_eq]
          intro hc
          rcases List.mem_cons.mp hmb with he | hm
          · exact hbe he
          · exact hid_unique b hm hc.symm
      simp only [lookupRank, hra, if_true, Option.some.injEq] at hla
      simp only [lookupRank, hbne, Bool.false_eq_true, if_false] at hlb
      have := lookupRank_lower b.id rs (i + 1) pb hlb
      omega
    · have hra' : (r.id == a.id) = false := by simpa using hra
      have hma' : a ∈ rs := by
        rcases List.mem_cons.mp hma with he | hm
        · exfalso
          subst he
          simp at hra'
        · exact hm
      by_cases hrb : (r.id == b.id) = true
      · exfalso
        have hbe : b = r := by
          rcases List.mem_cons.mp hmb with he | hm
          · exact he
          · exact absurd (beq_iff_eq.mp hrb).symm (hid_unique b hm)
        have hle : leTime b a = true := hbe ▸ hhead a hma'
        unfold leTime at hle
        rw [hta, htb] at hle
        simp only [decide_eq_true_eq] at hle
        omega
      · have hrb' : (r.id == b.id) = false := by simpa using hrb
        have hmb' : b ∈ rs := by
          rcases List.mem_cons.mp hmb with he | hm
          · exfalso
            subst he
            simp at hrb'
          · exact hm
        simp only [lookupRank, hra', hrb', Bool.false_eq_true, if_false] at hla hlb
        exact ih hn.2 htail (i + 1) a b pa pb ta tb hma' hmb' hla hlb hta htb htab

theorem finishedOfRace_map_posAssign (s : StoreState) (raceId : Nat)
    (hwf : WFState s)
    (hLid : ((sortByTime (finishedOfRace s raceId)).map (fun r => r.id)).Nodup) :
    finishedOfRace (updateRacePositionsRepo s raceId) raceId =
      (finishedOfRace s raceId).map
        (posAssign (sortByTime (finishedOfRace s raceId)) 0) := by
  show (applyPositions (sortByTime (finishedOfRace s raceId)) 0 s.results).filter _ = _
  rw [applyPositions_eq_map _ 0 s.results hwf.2.1 hLid, List.filter_map]
  show ((s.results.filter _).map _) = _
  congr 1
  apply List.filter_congr
  intro x _
  show ((posAssign (sortByTime (finishedOfRace s raceId)) 0 x).race == raceId &&
    (posAssign (sortByTime (finishedOfRace s raceId)) 0 x).status ==
      ResultStatus.Finished) = _
  rw [posAssign_race, posAssign_status]

/-- Claim C4 — rank consistency: after a position recomputation (which
runs after every finish event), the positions of the race's Finished
results are a permutation of `some 1 .. some N` (no gaps, no duplicates),
strictly increasing in `totalTime`; re-running the recomputation on the
unchanged result set leaves the store exactly as it is; and every
successful `finishRider` leaves the store in the image of a
recomputation. -/
theorem rank_consistency :
    ∀ (s : StoreState) (raceId : Nat), WFState s →
      List.Perm
        ((finishedOfRace (updateRacePositionsRepo s raceId) raceId).map
          (fun r => r.position))
        ((List.range
            (finishedOfRace (updateRacePositionsRepo s raceId) raceId).length).map
          (fun i => some (i + 1))) ∧
      (∀ a ∈ finishedOfRace (updateRacePositionsRepo s raceId) raceId,
       ∀ b ∈ finishedOfRace (updateRacePositionsRepo s raceId) raceId,
       ∀ (ta tb : Int) (pa pb : Nat),
        a.totalTime = some ta → b.totalTime = some tb → ta < tb →
        a.position = some pa → b.position = some pb → pa < pb) ∧
      updateRacePositionsRepo (updateRacePositionsRepo s raceId) raceId =
        updateRacePositionsRepo s raceId ∧
      (∀ (riderId : Nat) (now : Int) (p : StoreState × Option EnrichedResult),
        finishRider s raceId riderId now = Except.ok p →
        ∃ smid, p.1 = updateRacePositionsRepo smid raceId) := by
  intro s raceId hwf
  have hFid : ((finishedOfRace s raceId).map (fun r => r.id)).Nodup := by
    apply List.Nodup.sublist ?_ hwf.2.1
    exact List.Sublist.map _ (List.filter_sublist s.results)
  have hLperm : List.Perm (sortByTime (finishedOfRace s raceId))
      (finishedOfRace s raceId) := sortByTime_perm _
  have hLid : ((sortByTime (finishedOfRace s raceId)).map (fun r => r.id)).Nodup :=
    hFid.perm (hLperm.map _).symm
  have hF' := finishedOfRace_map_posAssign s raceId hwf hLid
  have hmemL : ∀ x ∈ finishedOfRace s raceId,
      x ∈ sortByTime (finishedOfRace s raceId) := fun x hx =>
    (hLperm.mem_iff).mpr hx
  have hlook : ∀ x ∈ finishedOfRace s raceId,
      ∃ p, lookupRank (sortByTime (finishedOfRace s raceId)) 0 x.id = some p := by
    intro x hx
    exact lookupRank_isSome x.id _ 0 (List.mem_map_of_mem _ (hmemL x hx))
  refine ⟨?_, ?_, ?_, ?_⟩
  · rw [hF', List.map_map]
    have h1 : (finishedOfRace s raceId).map
        ((fun r => r.position) ∘ posAssign (sortByTime (finishedOfRace s raceId)) 0) =
        (finishedOfRace s raceId).map
          (fun x => lookupRank (sortByTime (finishedOfRace s raceId)) 0 x.id) := by
      apply List.map_congr_left
      intro x hx
      rcases hlook x hx with ⟨p, hp⟩
      simp only [Function.comp_apply, posAssign_of_some _ _ _ _ hp, hp]
    have hlen : ((finishedOfRace s raceId).map
        (posAssign (sortByTime (finishedOfRace s raceId)) 0)).length =
        (sortByTime (finishedOfRace s raceId)).length := by
      rw [List.length_map, hLperm.length_eq]
    rw [h1, hlen]
    have h2 : (sortByTime (finishedOfRace s raceId)).map
        (fun x => lookupRank (sortByTime (finishedOfRace s raceId)) 0 x.id) =
        (List.range (sortByTime (finishedOfRace s raceId)).length).map
          (fun j => some (j + 1)) := by
      rw [lookupRank_map_ranks _ 0 hLid]
      apply List.map_congr_left
      intro j _
      simp
    rw [← h2]
    exact hLperm.symm.map _
  · intro a ha b hb ta tb pa pb hta htb htab hpa hpb
    rw [hF'] at ha hb
    rcases List.mem_map.mp ha with ⟨a0, ha0, hae⟩
    rcases List.mem_map.mp hb with ⟨b0, hb0, hbe⟩
    rcases hlook a0 ha0 with ⟨pa0, hpla⟩
    rcases hlook b0 hb0 with ⟨pb0, hplb⟩
    have hap : a.position = some pa0 := by
      rw [← hae, posAssign_of_some _ _ _ _ hpla]
    have hbp : b.position = some pb0 := by
      rw [← hbe, posAssign_of_some _ _ _ _ hplb]
    rw [hpa] at hap
    rw [hpb] at hbp
    injection hap with hap'
    injection hbp with hbp'
    subst hap'
    subst hbp'
    have hat : a0.totalTime = some ta := by
      rw [← posAssign_totalTime (sortByTime (finishedOfRace s raceId)) 0 a0, hae, hta]
    have hbt : b0.totalTime = some tb := by
      rw [← posAssign_totalTime (sortByTime (finishedOfRace s raceId)) 0 b0, hbe, htb]
    exact lookupRank_mono _ hLid (sortByTime_pairwise _) 0 a0 b0 pa pb ta tb
      (hmemL a0 ha0) (hmemL b0 hb0) hpla hplb hat hbt htab
  · have hres : (updateRacePositionsRepo s raceId).results =
        s.results.map (posAssign (sortByTime (finishedOfRace s raceId)) 0) :=
      applyPositions_eq_map _ 0 s.results hwf.2.1 hLid
    have hsid : ((updateRacePositionsRepo s raceId).results.map
        (fun r => r.id)).Nodup := by
      rw [hres, map_ids_pres _ (posAssign_id _ 0)]
      exact hwf.2.1
    have hL' : sortByTime (finishedOfRace (updateRacePositionsRepo s raceId) raceId) =
        (sortByTime (finishedOfRace s raceId)).map
          (posAssign (sortByTime (finishedOfRace s raceId)) 0) := by
      rw [hF', sortByTime_map _ (posAssign_totalTime _ 0)]
    have hL'id : ((sortByTime
        (finishedOfRace (updateRacePositionsRepo s raceId) raceId)).map
        (fun r => r.id)).Nodup := by
      rw [hL', map_ids_pres _ (posAssign_id _ 0)]
      exact hLid
    show { updateRacePositionsRepo s raceId with
      results := applyPositions
        (sortByTime (finishedOfRace (updateRacePositionsRepo s raceId) raceId)) 0
        (updateRacePositionsRepo s raceId).results } = updateRacePositionsRepo s raceId
    rw [applyPositions_eq_map _ 0 _ hsid hL'id]
    have hpoint : ∀ x,
        posAssign (sortByTime (finishedOfRace (updateRacePositionsRepo s raceId)
            raceId)) 0
          (posAssign (sortByTime (finishedOfRace s raceId)) 0 x) =
        posAssign (sortByTime (finishedOfRace s raceId)) 0 x := by
      intro x
      have hids : lookupRank (sortByTime
          (finishedOfRace (updateRacePositionsRepo s raceId) raceId)) 0
            (posAssign (sortByTime (finishedOfRace s raceId)) 0 x).id =
          lookupRank (sortByTime (finishedOfRace s raceId)) 0 x.id := by
        rw [posAssign_id, hL',
          lookupRank_map_id_pres _ (posAssign_id _ 0)]
      cases hcase : lookupRank (sortByTime (finishedOfRace s raceId)) 0 x.id with
      | none =>
        rw [hcase] at hids
        rw [posAssign_of_none _ _ _ hids]
      | some p =>
        rw [hcase] at hids
        rw [posAssign_of_some _ _ _ _ hids, posAssign_of_some _ _ _ _ hcase]
    have hmapped : (updateRacePositionsRepo s raceId).results.map
        (posAssign (sortByTime
          (finishedOfRace (updateRacePositionsRepo s raceId) raceId)) 0) =
        (updateRacePositionsRepo s raceId).results := by
      rw [hres, List.map_map]
      apply List.map_congr_left
      intro x _
      exact hpoint x
    rw [hmapped]
  · intro riderId now p h
    cases hl : finishRiderLookup s raceId riderId with
    | none => simp [finishRider, hl] at h
    | some r0 =>
      simp only [finishRider, hl, Except.ok.injEq] at h
      subst h
      rw [finishRiderCommit_fst]
      exact ⟨_, rfl⟩

/-- Witness for C4: the recomputation on `demoRank` (three Finished
results with totalTimes 300, 100, 200 stored out of order, plus one
Started rider). -/
theorem rank_consistency_witness :
    List.Perm
      ((finishedOfRace (updateRacePositionsRepo demoRank 1) 1).map
        (fun r => r.position))
      ((List.range
          (finishedOfRace (updateRacePositionsRepo demoRank 1) 1).length).map
        (fun i => some (i + 1))) ∧
    (∀ a ∈ finishedOfRace (updateRacePositionsRepo demoRank 1) 1,
     ∀ b ∈ finishedOfRace (updateRacePositionsRepo demoRank 1) 1,
     ∀ (ta tb : Int) (pa pb : Nat),
      a.totalTime = some ta → b.totalTime = some tb → ta < tb →
      a.position = some pa → b.position = some pb → pa < pb) ∧
    updateRacePositionsRepo (updateRacePositionsRepo demoRank 1) 1 =
      updateRacePositionsRepo demoRank 1 ∧
    (∀ (riderId : Nat) (now : Int) (p : StoreState × Option EnrichedResult),
      finishRider demoRank 1 riderId now = Except.ok p →
      ∃ smid, p.1 = updateRacePositionsRepo smid 1) :=
  rank_consistency demoRank 1 (by decide)

/-- Claim C7 (counterexample) — `dnfCount` in the race report is not the
count of DNF results: for a race whose only result is a DSQ, the report
says `dnfCount = 1` while the store holds zero DNF results, because the
code fills `dnfCount` with `dnf.total`, the size of the combined
DNF + DSQ list. -/
theorem raceReport_dnfCount_counterexample :
    generateRaceReport demoDsq 1 = Except.ok demoDsqReport ∧
    demoDsqReport.map (fun rep => rep.statistics.dnfCount) = some 1 ∧
    ((resultsOfRace demoDsq 1).filter
      (fun r => r.status == ResultStatus.DNF)).length = 0 := by
  refine ⟨rfl, by decide, by decide⟩

theorem length_filter_or {α : Type} (p q : α → Bool) (l : List α)
    (hpq : ∀ a, ¬(p a = true ∧ q a = true)) :
    (l.filter (fun a => p a || q a)).length =
      (l.filter p).length + (l.filter q).length := by
  induction l with
  | nil => rfl
  | cons x xs ih =>
    by_cases hp : p x = true <;> by_cases hq : q x = true
    · exact absurd ⟨hp, hq⟩ (hpq x)
    · have hq' : q x = false := by simpa using hq
      simp only [List.filter_cons, hp, hq', Bool.or_false, if_true, List.length_cons,
        Bool.false_eq_true, if_false, ih]
      omega
    · have hp' : p x = false := by simpa using hp
      simp only [List.filter_cons, hp', hq, Bool.false_or, if_true, List.length_cons,
        Bool.false_eq_true, if_false, ih]
      omega
    · have hp' : p x = false := by simpa using hp
      have hq' : q x = false := by simpa using hq
      simp only [List.filter_cons, hp', hq', Bool.or_false, Bool.false_eq_true,
        if_false, ih]

theorem foldl_jsAdd_all_some :
    ∀ (l : List RaceResult) (acc : Int), (∀ r ∈ l, r.totalTime.isSome = true) →
      l.foldl (fun a r => jsAdd a r.totalTime) (some acc) =
        some (acc + (l.filterMap (fun r => r.totalTime)).sum) := by
  intro l
  induction l with
  | nil => intro acc _; simp
  | cons r rs ih =>
    intro acc h
    have hr : r.totalTime.isSome = true := h r (List.mem_cons_self r rs)
    rcases Option.isSome_iff_exists.mp hr with ⟨t, ht⟩
    have hrs : ∀ x ∈ rs, x.totalTime.isSome = true := fun x hx =>
      h x (List.mem_cons_of_mem r hx)
    have hstep : jsAdd (some acc) r.totalTime = some (acc + t) := by
      rw [ht]
      rfl
    rw [List.foldl_cons, hstep, ih (acc + t) hrs]
    simp only [List.filterMap_cons, ht, List.sum_cons, Option.some.injEq]
    omega

theorem calculateAverageTime_all_some (l : List RaceResult) (hne : l ≠ [])
    (h : ∀ r ∈ l, r.totalTime.isSome = true) :
    calculateAverageTime l =
      some (jsRoundDiv ((l.filterMap (fun r => r.totalTime)).sum) l.length) := by
  unfold calculateAverageTime
  have hlen : (l.length == 0) = false := by
    simp only [beq_eq_false_iff_ne, ne_eq, List.length_eq_zero]
    exact hne
  rw [foldl_jsAdd_all_some l 0 h]
  simp [hlen]

/-- Claim C7 (amended) — race report contract: an unresolved race id
gives the soft `{ race: null }` marker with no error; for an existing
race, `totalParticipants` is the count of all the race's results,
`finishedCount` the count of its Finished results, `dsqCount` the count
of its DSQ results, `dnfCount` the count of its DNF **plus** DSQ results
(the `didNotFinish` total, not the DNF count alone), and `averageTime`
is `null` when nothing is Finished and otherwise the JavaScript-rounded
mean of the Finished results' totalTimes. -/
theorem raceReport_contract_amended :
    (∀ (s : StoreState) (raceId : Nat), findRace s raceId = none →
      generateRaceReport s raceId = Except.ok none) ∧
    (∀ (s : StoreState) (raceId : Nat) (race : Race),
      findRace s raceId = some race →
      ∃ rep, generateRaceReport s raceId = Except.ok (some rep) ∧
        rep.statistics.totalParticipants = (resultsOfRace s raceId).length ∧
        rep.statistics.finishedCount = ((resultsOfRace s raceId).filter
          (fun r => r.status == ResultStatus.Finished)).length ∧
        rep.statistics.dsqCount = ((resultsOfRace s raceId).filter
          (fun r => r.status == ResultStatus.DSQ)).length ∧
        rep.statistics.dnfCount =
          ((resultsOfRace s raceId).filter
            (fun r => r.status == ResultStatus.DNF)).length +
          ((resultsOfRace s raceId).filter
            (fun r => r.status == ResultStatus.DSQ)).length ∧
        (((resultsOfRace s raceId).filter
            (fun r => r.status == ResultStatus.Finished)) = [] →
          rep.statistics.averageTime = none) ∧
        ((∀ r ∈ (resultsOfRace s raceId).filter
            (fun r => r.status == ResultStatus.Finished),
            r.totalTime.isSome = true) →
         ((resultsOfRace s raceId).filter
            (fun r => r.status == ResultStatus.Finished)) ≠ [] →
          rep.statistics.averageTime =
            some (jsRoundDiv
              ((((resultsOfRace s raceId).filter
                (fun r => r.status == ResultStatus.Finished)).filterMap
                  (fun r => r.totalTime)).sum)
              (((resultsOfRace s raceId).filter
                (fun r => r.status == ResultStatus.Finished)).length)))) := by
  constructor
  · intro s raceId hfind
    simp [generateRaceReport, hfind]
  · intro s raceId race hfind
    have hperm : List.Perm (getResultsByRace s raceId) (resultsOfRace s raceId) :=
      sortByTime_perm _
    have hpermF : List.Perm
        ((getResultsByRace s raceId).filter (fun r => r.status == ResultStatus.Finished))
        ((resultsOfRace s raceId).filter (fun r => r.status == ResultStatus.Finished)) :=
      hperm.filter _
    refine ⟨{
        race := race,
        statistics := {
          totalParticipants := (getResultsByRace s raceId).length,
          finishedCount := ((getResultsByRace s raceId).filter
            (fun r => r.status == ResultStatus.Finished)).length,
          dnfCount := (getRidersWhoDidNotFinish s raceId).total,
          dsqCount := ((getResultsByRace s raceId).filter
            (fun r => r.status == ResultStatus.DSQ)).length,
          averageTime := calculateAverageTime ((getResultsByRace s raceId).filter
            (fun r => r.status == ResultStatus.Finished)) },
        top3Fastest := getTop3FastestRiders s raceId,
        didNotFinish := getRidersWhoDidNotFinish s raceId,
        weatherConditions := race.weatherConditions },
      ?_, ?_, ?_, ?_, ?_, ?_, ?_⟩
    · simp only [generateRaceReport, hfind]
    · exact hperm.length_eq
    · exact hpermF.length_eq
    · exact (hperm.filter _).length_eq
    · show (s.results.filter (fun r => r.race == raceId &&
        (r.status == ResultStatus.DNF || r.status == ResultStatus.DSQ))).length = _
      rw [List.filter_congr (fun a _ => Bool.and_or_distrib_left
        (a.race == raceId) (a.status == ResultStatus.DNF)
        (a.status == ResultStatus.DSQ))]
      rw [length_filter_or _ _ s.results ?hexcl]
      · show _ = ((s.results.filter (fun r => r.race == raceId)).filter
            (fun r => r.status == ResultStatus.DNF)).length +
          ((s.results.filter (fun r => r.race == raceId)).filter
            (fun r => r.status == ResultStatus.DSQ)).length
        rw [List.filter_filter, List.filter_filter]
        have e1 : ∀ (st : ResultStatus),
            s.results.filter (fun a => a.race == raceId && a.status == st) =
              s.results.filter (fun a => a.status == st && a.race == raceId) :=
          fun st => List.filter_congr (fun a _ => Bool.and_comm _ _)
        rw [e1 ResultStatus.DNF, e1 ResultStatus.DSQ]
      case hexcl =>
        intro a ha
        rcases ha with ⟨h1, h2⟩
        simp only [Bool.and_eq_true, beq_iff_eq] at h1 h2
        rw [h1.2] at h2
        cases h2.2
    · intro hnil
      have hzero : (getResultsByRace s raceId).filter
          (fun r => r.status == ResultStatus.Finished) = [] := by
        apply List.Perm.eq_nil
        rw [← hnil]
        exact hpermF
      show calculateAverageTime _ = none
      rw [hzero]
      rfl
    · intro hall hne
      have hne2 : (getResultsByRace s raceId).filter
          (fun r => r.status == ResultStatus.Finished) ≠ [] := by
        intro hc
        apply hne
        apply List.Perm.eq_nil
        rw [← hc]
        exact hpermF.symm
      have hall2 : ∀ r ∈ (getResultsByRace s raceId).filter
          (fun r => r.status == ResultStatus.Finished), r.totalTime.isSome = true :=
        fun r hr => hall r (hpermF.mem_iff.mp hr)
      show calculateAverageTime _ = _
      rw [calculateAverageTime_all_some _ hne2 hall2]
      congr 1
      rw [(hpermF.filterMap _).sum_eq, hpermF.length_eq]

/-- Witness for the amended C7 theorem: soft null for an unknown race id,
and the statistics contract for the DSQ-only sample race. -/
theorem raceReport_contract_amended_witness :
    generateRaceReport demoDsq 9 = Except.ok none ∧
    (∃ rep, generateRaceReport demoDsq 1 = Except.ok (some rep) ∧
      rep.statistics.totalParticipants = (resultsOfRace demoDsq 1).length ∧
      rep.statistics.finishedCount = ((resultsOfRace demoDsq 1).filter
        (fun r => r.status == ResultStatus.Finished)).length ∧
      rep.statistics.dsqCount = ((resultsOfRace demoDsq 1).filter
        (fun r => r.status == ResultStatus.DSQ)).length ∧
      rep.statistics.dnfCount =
        ((resultsOfRace demoDsq 1).filter
          (fun r => r.status == ResultStatus.DNF)).length +
        ((resultsOfRace demoDsq 1).filter
          (fun r => r.status == ResultStatus.DSQ)).length ∧
      (((resultsOfRace demoDsq 1).filter
          (fun r => r.status == ResultStatus.Finished)) = [] →
        rep.statistics.averageTime = none) ∧
      ((∀ r ∈ (resultsOfRace demoDsq 1).filter
          (fun r => r.status == ResultStatus.Finished),
          r.totalTime.isSome = true) →
       ((resultsOfRace demoDsq 1).filter
          (fun r => r.status == ResultStatus.Finished)) ≠ [] →
        rep.statistics.averageTime =
          some (jsRoundDiv
            ((((resultsOfRace demoDsq 1).filter
              (fun r => r.status == ResultStatus.Finished)).filterMap
                (fun r => r.totalTime)).sum)
            (((resultsOfRace demoDsq 1).filter
              (fun r => r.status == ResultStatus.Finished)).length)))) :=
  ⟨raceReport_contract_amended.1 demoDsq 9 (by decide),
   raceReport_contract_amended.2 demoDsq 1 demoRace (by decide)⟩
